import Mathlib

/-!
The per-request pipeline of juno-rpc-proxy.

A shallow embedding of `config.go` and `proxy.go`.

Conventions of the embedding:

* Go `string` and `[]byte` values are Lean `String`s. The program only compares them,
  concatenates them, tests an ASCII prefix, slices after that prefix and splits at an
  ASCII colon.
* A `json.RawMessage` is an `Option String`: `none` is the nil slice.
* An `http.Header` is a list of entries `(key, values)`; the map it stands for sends a
  key to the concatenation of the values of the entries with that key. Keys are taken
  in the canonical form `net/http` stores them in, so a lookup is an exact match.
* The handler is a function from the response writer and the inbound request to the
  final response writer together with the list of requests handed to the upstream
  client and a flag that tells whether a library call panicked. Logging is not
  modelled.
* Functions of the Go standard library that the proxy calls (`encoding/json`,
  `encoding/base64`, `http.NewRequest`) are fields of `Lib`; the upstream client is
  a field of `Proxy`, as in the source. `time.ParseDuration` and the `Do` method of a
  client with a given timeout are arguments of the functions that use them.
* A `time.Duration` is an `Int` of nanoseconds; sums are taken in `int64`.
-/

namespace JunoProxy

/-! ## config.go -/

structure ProxyAuth where
  Enabled : Bool
  Username : String
  Password : String
deriving DecidableEq, Repr

structure Upstream where
  URL : String
  Username : String
  Password : String
  Timeout : String
deriving DecidableEq, Repr

structure Config where
  Listen : String
  ProxyAuth : JunoProxy.ProxyAuth
  Upstream : JunoProxy.Upstream
  AllowedMethods : List String
deriving DecidableEq, Repr

/-- The loop of `Config.IsMethodAllowed` over the remaining allowed methods. -/
def isMethodAllowedLoop (method : String) : List String → Bool
  | [] => false
  | m :: rest => if m == method then true else isMethodAllowedLoop method rest

/-- Go `func (c *Config) IsMethodAllowed(method string) bool`. -/
def Config.IsMethodAllowed (c : Config) (method : String) : Bool :=
  isMethodAllowedLoop method c.AllowedMethods

/-! ## proxy.go: wire types -/

structure JSONRPCRequest where
  JSONRPC : String
  ID : Option String
  Method : String
  Params : Option String
deriving DecidableEq, Repr

structure JSONRPCError where
  Code : Int
  Message : String
deriving DecidableEq, Repr

structure JSONRPCResponse where
  JSONRPC : String
  ID : Option String
  Result : Option String
  Error : Option JSONRPCError
deriving DecidableEq, Repr

/-! ## net/http values -/

/-- An `http.Header`: entries `(key, values)`. -/
abbrev Header := List (String × List String)

/-- All values of a key, in order: `h.Values(key)`. -/
def Header.Values : Header → String → List String
  | [], _ => []
  | (k, vs) :: rest, key =>
    if k == key then vs ++ Header.Values rest key else Header.Values rest key

/-- First value of a key, or the empty string: `h.Get(key)`. -/
def Header.Get (h : Header) (key : String) : String :=
  match h.Values key with
  | [] => ""
  | v :: _ => v

/-- Removal of a key: `h.Del(key)`. -/
def Header.Del (h : Header) (key : String) : Header :=
  h.filter (fun e => !(e.1 == key))

/-- Replacement of the values of a key by one value: `h.Set(key, value)`. -/
def Header.Set (h : Header) (key value : String) : Header :=
  h.Del key ++ [(key, [value])]

/-- One more value for a key: `h.Add(key, value)`. -/
def Header.Add (h : Header) (key value : String) : Header :=
  h ++ [(key, [value])]

/-- The inbound `*http.Request`, as far as the handler reads it. `Body` is the result
of `io.ReadAll(r.Body)`: `none` when reading fails. -/
structure Request where
  Method : String
  Header : JunoProxy.Header
  Body : Option String
deriving DecidableEq, Repr

/-- The `http.ResponseWriter`: its header map, the status code sent (`none` before
one is sent) and the bytes written so far. -/
structure ResponseWriter where
  header : Header
  status : Option Nat
  body : String
deriving DecidableEq, Repr

/-- The writer the server hands to the handler. -/
def ResponseWriter.fresh : ResponseWriter :=
  { header := [], status := none, body := "" }

/-- Go `checkWriteHeaderCode` of `net/http`: the status codes from 100 to 999 are
accepted, every other code makes `WriteHeader` panic. -/
def checkWriteHeaderCode (code : Nat) : Bool :=
  decide (100 ≤ code) && decide (code ≤ 999)

/-- Whether the server sends a status code as an informational response: the codes
from 100 to 199 other than 101. -/
def isInformational (code : Nat) : Bool :=
  decide (100 ≤ code) && decide (code ≤ 199) && !(code == 101)

/-- Go `w.WriteHeader(code)`; `none` is its panic. A call after the status was sent is
ignored by the server; otherwise a code that `checkWriteHeaderCode` refuses panics, an
informational code is sent at once and leaves the status of the response open, and any
other code is the status of the response. -/
def ResponseWriter.WriteHeader (w : ResponseWriter) (code : Nat) : Option ResponseWriter :=
  match w.status with
  | some _ => some w
  | none =>
    if !(checkWriteHeaderCode code) then none
    else if isInformational code then some w
    else some { w with status := some code }

/-- Go `w.Write(b)`; the first write calls `WriteHeader(http.StatusOK)` when no status
was sent, a call that cannot panic. -/
def ResponseWriter.Write (w : ResponseWriter) (b : String) : ResponseWriter :=
  let w1 := (w.WriteHeader 200).getD w
  { w1 with body := w1.body ++ b }

/-- Go `w.Header().Set(key, value)`. -/
def ResponseWriter.SetHeader (w : ResponseWriter) (key value : String) : ResponseWriter :=
  { w with header := w.header.Set key value }

/-- Go `w.Header().Add(key, value)`. -/
def ResponseWriter.AddHeader (w : ResponseWriter) (key value : String) : ResponseWriter :=
  { w with header := w.header.Add key value }

/-- Go `http.Error(w, error, code)`, for a status code that is neither refused by
`WriteHeader` nor informational, as `http.StatusMethodNotAllowed` and
`http.StatusUnauthorized` are: plain-text content type, the status code, and the
message followed by a newline. -/
def httpError (w : ResponseWriter) (error : String) (code : Nat)
    (_valid : (checkWriteHeaderCode code && !(isInformational code)) = true) : ResponseWriter :=
  let w1 := { w with header := w.header.Del "Content-Length" }
  let w2 := w1.SetHeader "Content-Type" "text/plain; charset=utf-8"
  let w3 := w2.SetHeader "X-Content-Type-Options" "nosniff"
  let w4 := (w3.WriteHeader code).getD w3
  w4.Write (error ++ "\n")

/-- The `*http.Request` that `forwardRequest` hands to `httpClient.Do`. -/
structure UpstreamRequest where
  Method : String
  URL : String
  Header : JunoProxy.Header
  Body : String
deriving DecidableEq, Repr

/-- The `*http.Response` returned by `httpClient.Do`; `Body` is what reading
`resp.Body` yields. -/
structure UpstreamResponse where
  StatusCode : Nat
  Header : JunoProxy.Header
  Body : String
deriving DecidableEq, Repr

/-! ## Standard-library functions used by the proxy -/

/-- The library calls of `proxy.go`, taken as parameters. -/
structure Lib where
  /-- Go `json.Unmarshal(body, &requests)` for `requests []JSONRPCRequest`; `none`
  when it returns an error. -/
  unmarshalBatch : String → Option (List JSONRPCRequest)
  /-- Go `json.Unmarshal(body, &singleReq)` for `singleReq JSONRPCRequest`. -/
  unmarshalSingle : String → Option JSONRPCRequest
  /-- The JSON text `encoding/json` writes for a Go string. -/
  jsonString : String → String
  /-- The compacted text `encoding/json` writes for a non-nil `json.RawMessage`;
  `none` when the message is not valid JSON. -/
  jsonCompact : String → Option String
  /-- Go `base64.StdEncoding.EncodeToString`. -/
  EncodeToString : String → String
  /-- Go `base64.StdEncoding.DecodeString`; `none` when it returns an error. -/
  DecodeString : String → Option String
  /-- Whether `http.NewRequest(http.MethodPost, url, body)` returns a request. -/
  newRequestOK : String → Bool
  /-- The literal `null` is valid JSON and already compact. -/
  compact_null : jsonCompact "null" = some "null"
  /-- Go `json.Unmarshal` checks the whole document before it stores anything, so the
  raw id of every request it returns is valid JSON. -/
  batch_ids_valid : ∀ body requests, unmarshalBatch body = some requests →
    ∀ req ∈ requests, ∀ raw, req.ID = some raw → ∃ text, jsonCompact raw = some text
  /-- The same for a single request. -/
  single_id_valid : ∀ body req, unmarshalSingle body = some req →
    ∀ raw, req.ID = some raw → ∃ text, jsonCompact raw = some text

/-- Go `strings.HasPrefix(s, pre)`. -/
def HasPrefix (s pre : String) : Bool :=
  pre.data.isPrefixOf s.data

/-- Go `s[n:]`, used after a prefix of `n` ASCII bytes. -/
def sliceFrom (s : String) (n : Nat) : String :=
  ⟨s.data.drop n⟩

/-- The text before and after the first `sep`, when there is one. -/
def cutAt (sep : Char) : List Char → Option (List Char × List Char)
  | [] => none
  | c :: cs =>
    if c = sep then some ([], cs)
    else match cutAt sep cs with
      | none => none
      | some (a, b) => some (c :: a, b)

/-- Go `strings.SplitN(s, sep, 2)` for a one-character separator. -/
def SplitN2 (s : String) (sep : Char) : List String :=
  match cutAt sep s.data with
  | none => [s]
  | some (a, b) => [⟨a⟩, ⟨b⟩]

/-! ## proxy.go: the handler -/

/-- Go `type Proxy struct`: the configuration and the upstream client. `httpClient`
is `p.httpClient.Do`: `none` when it returns an error. -/
structure Proxy where
  config : Config
  httpClient : UpstreamRequest → Option UpstreamResponse

/-- The text `encoding/json` writes for a `json.RawMessage` field that is not
omitted: `null` for the nil slice, the compacted message otherwise. -/
def marshalRaw (lib : Lib) : Option String → Option String
  | none => some "null"
  | some m => lib.jsonCompact m

/-- The text `encoding/json` writes for a `JSONRPCError`, by its field tags. -/
def marshalError (lib : Lib) (e : JSONRPCError) : String :=
  "\x7b\"code\":" ++ toString e.Code ++ ",\"message\":" ++ lib.jsonString e.Message ++ "\x7d"

/-- Members of the encoded response for `Result`, tagged `result,omitempty`. -/
def marshalResultMember (lib : Lib) : Option String → Option (List String)
  | none => some []
  | some m =>
    if m.data = [] then some []
    else match lib.jsonCompact m with
      | none => none
      | some c => some ["\"result\":" ++ c]

/-- Elements joined with commas. -/
def joinMembers : List String → String
  | [] => ""
  | [m] => m
  | m :: rest => m ++ "," ++ joinMembers rest

/-- The text `encoding/json` writes for a `JSONRPCResponse`, by its field tags:
`jsonrpc,omitempty`, `id`, `result,omitempty`, `error,omitempty`, in this order;
`none` when a raw message is not valid JSON. -/
def marshalResponse (lib : Lib) (r : JSONRPCResponse) : Option String :=
  match marshalRaw lib r.ID with
  | none => none
  | some id =>
    match marshalResultMember lib r.Result with
    | none => none
    | some result =>
      let version := if r.JSONRPC.data = [] then [] else ["\"jsonrpc\":" ++ lib.jsonString r.JSONRPC]
      let error := match r.Error with
        | none => []
        | some e => ["\"error\":" ++ marshalError lib e]
      some ("\x7b" ++ joinMembers (version ++ ["\"id\":" ++ id] ++ result ++ error) ++ "\x7d")

/-- Go `json.NewEncoder(w).Encode(response)`: the marshalled value and a newline are
written; nothing is written when marshalling fails. -/
def ResponseWriter.Encode (lib : Lib) (w : ResponseWriter) (response : JSONRPCResponse) :
    ResponseWriter :=
  match marshalResponse lib response with
  | none => w
  | some text => w.Write (text ++ "\n")

/-- Go `func (p *Proxy) sendError(w, id, code, message)`. -/
def Proxy.sendError (lib : Lib) (w : ResponseWriter) (id : Option String) (code : Int)
    (message : String) : ResponseWriter :=
  let id1 : Option String := match id with
    | none => some "null"
    | some raw => some raw
  let response : JSONRPCResponse :=
    { JSONRPC := "2.0", ID := id1, Result := none,
      Error := some { Code := code, Message := message } }
  let w1 := w.SetHeader "Content-Type" "application/json"
  let w2 := (w1.WriteHeader 200).getD w1
  w2.Encode lib response

/-- Go `func (p *Proxy) checkProxyAuth(r *http.Request) bool`. -/
def Proxy.checkProxyAuth (lib : Lib) (p : Proxy) (r : Request) : Bool :=
  let auth := r.Header.Get "Authorization"
  if auth == "" then false
  else if !(HasPrefix auth "Basic ") then false
  else match lib.DecodeString (sliceFrom auth 6) with
    | none => false
    | some decoded =>
      let parts := SplitN2 decoded ':'
      if parts.length != 2 then false
      else parts.getD 0 "" == p.config.ProxyAuth.Username &&
        parts.getD 1 "" == p.config.ProxyAuth.Password

/-- The result of one call of the handler: the response writer at the end, the
requests handed to the upstream client, in order, and whether the handler ended in a
panic of a library call instead of returning. After a panic the server drops the
connection, and what the writer holds is not sent. -/
structure Outcome where
  w : ResponseWriter
  calls : List UpstreamRequest
  panicked : Bool := false
deriving DecidableEq, Repr

/-- The request `forwardRequest` builds: `http.NewRequest` with the body, then the
content type and, when an upstream username is configured, the credentials. -/
def Proxy.upstreamRequest (lib : Lib) (p : Proxy) (body : String) : UpstreamRequest :=
  let req : UpstreamRequest :=
    { Method := "POST", URL := p.config.Upstream.URL, Header := [], Body := body }
  let req1 := { req with Header := req.Header.Set "Content-Type" "application/json" }
  if p.config.Upstream.Username != "" then
    let auth := lib.EncodeToString (p.config.Upstream.Username ++ ":" ++ p.config.Upstream.Password)
    { req1 with Header := req1.Header.Set "Authorization" ("Basic " ++ auth) }
  else req1

/-- The loop of `forwardRequest` over the values of one response header. -/
def copyValues (key : String) : List String → ResponseWriter → ResponseWriter
  | [], w => w
  | value :: rest, w => copyValues key rest (w.AddHeader key value)

/-- The loop of `forwardRequest` over the response headers. -/
def copyHeaders : Header → ResponseWriter → ResponseWriter
  | [], w => w
  | (key, values) :: rest, w => copyHeaders rest (copyValues key values w)

/-- Go `func (p *Proxy) forwardRequest(w http.ResponseWriter, body []byte)`. -/
def Proxy.forwardRequest (lib : Lib) (p : Proxy) (w : ResponseWriter) (body : String) :
    Outcome :=
  if !(lib.newRequestOK p.config.Upstream.URL) then
    { w := Proxy.sendError lib w none (-32603)
        "Internal error: failed to create upstream request",
      calls := [] }
  else
    let req := p.upstreamRequest lib body
    match p.httpClient req with
    | none =>
      { w := Proxy.sendError lib w none (-32603) "Internal error: upstream connection failed",
        calls := [req] }
    | some resp =>
      let w1 := copyHeaders resp.Header w
      match w1.WriteHeader resp.StatusCode with
      | none => { w := w1, calls := [req], panicked := true }
      | some w2 => { w := w2.Write resp.Body, calls := [req] }

/-- The parsing step of `ServeHTTP`: the batch form first, then a single request
wrapped in a one-element slice; `none` when both fail. -/
def parseRequests (lib : Lib) (body : String) : Option (List JSONRPCRequest) :=
  match lib.unmarshalBatch body with
  | some requests => some requests
  | none =>
    match lib.unmarshalSingle body with
    | none => none
    | some singleReq => some [singleReq]

/-- The method loop of `ServeHTTP`: the request at which the loop returns, if any. -/
def blockedRequest (c : Config) : List JSONRPCRequest → Option JSONRPCRequest
  | [] => none
  | req :: rest =>
    if !(c.IsMethodAllowed req.Method) then some req else blockedRequest c rest

/-- Go `func (p *Proxy) ServeHTTP(w http.ResponseWriter, r *http.Request)`. -/
def Proxy.ServeHTTP (lib : Lib) (p : Proxy) (w : ResponseWriter) (r : Request) : Outcome :=
  if r.Method != "POST" then
    { w := httpError w "Method not allowed" 405 rfl, calls := [] }
  else if p.config.ProxyAuth.Enabled && !(p.checkProxyAuth lib r) then
    { w := httpError (w.SetHeader "WWW-Authenticate" "Basic realm=\"juno-proxy\"")
        "Unauthorized" 401 rfl,
      calls := [] }
  else
    match r.Body with
    | none =>
      { w := Proxy.sendError lib w none (-32700) "Parse error: failed to read request body",
        calls := [] }
    | some body =>
      match parseRequests lib body with
      | none =>
        { w := Proxy.sendError lib w none (-32700) "Parse error: invalid JSON", calls := [] }
      | some requests =>
        match blockedRequest p.config requests with
        | some req =>
          { w := Proxy.sendError lib w req.ID (-32601) ("Method not allowed: " ++ req.Method),
            calls := [] }
        | none => p.forwardRequest lib w body

/-! ## A library instance and sample data for the scenarios -/

/-- The base64 alphabet of `StdEncoding`. -/
def b64Alphabet : List Char :=
  "ABCDEFGHIJKLMNOPQRSTUVWXYZabcdefghijklmnopqrstuvwxyz0123456789+/".data

/-- The base64 digit of a six-bit value. -/
def b64Digit (n : Nat) : Char :=
  b64Alphabet.getD n '='

/-- Standard base64 with padding, on byte values. -/
def b64EncodeBytes : List Nat → List Char
  | a :: b :: c :: rest =>
    b64Digit (a / 4) :: b64Digit (a % 4 * 16 + b / 16) :: b64Digit (b % 16 * 4 + c / 64) ::
      b64Digit (c % 64) :: b64EncodeBytes rest
  | [a, b] => [b64Digit (a / 4), b64Digit (a % 4 * 16 + b / 16), b64Digit (b % 16 * 4), '=']
  | [a] => [b64Digit (a / 4), b64Digit (a % 4 * 16), '=', '=']
  | [] => []

/-- The six-bit value of a base64 digit. -/
def b64Value (c : Char) : Option Nat :=
  b64Alphabet.indexOf? c

/-- The bytes of one group of four base64 characters; padding is allowed in the last
group only. -/
def b64DecodeGroup (a b c d : Char) (last : Bool) : Option (List Nat) :=
  match b64Value a, b64Value b with
  | some x, some y =>
    if c = '=' then
      if d = '=' && last then some [x * 4 + y / 16] else none
    else match b64Value c with
      | none => none
      | some z =>
        if d = '=' then
          if last then some [x * 4 + y / 16, y % 16 * 16 + z / 4] else none
        else match b64Value d with
          | none => none
          | some u => some [x * 4 + y / 16, y % 16 * 16 + z / 4, z % 4 * 64 + u]
  | _, _ => none

/-- Standard base64 decoding with padding, to byte values. -/
def b64DecodeChars : List Char → Option (List Nat)
  | [] => some []
  | a :: b :: c :: d :: rest =>
    match b64DecodeGroup a b c d rest.isEmpty, b64DecodeChars rest with
    | some bytes, some more => some (bytes ++ more)
    | _, _ => none
  | _ => none

/-- Base64 encoding of a text whose characters are single bytes. -/
def sampleEncodeToString (s : String) : String :=
  ⟨b64EncodeBytes (s.data.map Char.toNat)⟩

/-- Base64 decoding; carriage returns and line feeds are skipped, as in Go. -/
def sampleDecodeString (s : String) : Option String :=
  match b64DecodeChars (s.data.filter (fun c => !(c = '\r' || c = '\n'))) with
  | none => none
  | some bytes => some ⟨bytes.map Char.ofNat⟩

/-- JSON escapes of the characters of a string, HTML-safe as in `json.Encoder`. -/
def sampleEscape : List Char → List Char
  | [] => []
  | c :: cs =>
    (if c = '"' then "\\\"".data
     else if c = '\\' then "\\\\".data
     else if c = '\n' then "\\n".data
     else if c = '\r' then "\\r".data
     else if c = '\t' then "\\t".data
     else if c = '<' then "\\u003c".data
     else if c = '>' then "\\u003e".data
     else if c = '&' then "\\u0026".data
     else [c]) ++ sampleEscape cs

/-- JSON text of a string. -/
def sampleJSONString (s : String) : String :=
  "\"" ++ ⟨sampleEscape s.data⟩ ++ "\""

/-- Whether the characters are the inside and closing quote of a plain JSON string. -/
def plainStringTail : List Char → Bool
  | [] => false
  | [c] => c = '"'
  | c :: cs => !(c = '"' || c = '\\' || c.toNat < 32) && plainStringTail cs

/-- Compaction of scalar raw messages: `null`, `true`, `false`, unsigned integers and
strings without escapes are already compact; everything else is taken as invalid. -/
def sampleCompact (m : String) : Option String :=
  if m = "null" || m = "true" || m = "false" then some m
  else if m.data.all Char.isDigit && !m.data.isEmpty then some m
  else match m.data with
    | '"' :: rest => if plainStringTail rest then some m else none
    | _ => none

/-- Body of scenario 1: a call of `eth_call` with id 1. -/
def callBody : String :=
  "\x7b\"jsonrpc\":\"2.0\",\"id\":1,\"method\":\"eth_call\",\"params\":[]\x7d"

/-- Body of scenario 2: a call of `eth_sendTransaction` with id 1. -/
def sendBody : String :=
  "\x7b\"jsonrpc\":\"2.0\",\"id\":1,\"method\":\"eth_sendTransaction\",\"params\":[]\x7d"

/-- Body of scenario 5: a batch of `eth_call` with id 1 and `eth_sendTransaction`
with id 2. -/
def batchBody : String :=
  "[\x7b\"method\":\"eth_call\",\"id\":1\x7d,\x7b\"method\":\"eth_sendTransaction\",\"id\":2\x7d]"

/-- A batch of two allowed calls. -/
def allowedBatchBody : String :=
  "[\x7b\"method\":\"eth_call\",\"id\":1\x7d, \x7b\"method\":\"eth_call\",\"id\":\"b\"\x7d]"

/-- Decoding of the sample bodies as `[]JSONRPCRequest`. -/
def sampleUnmarshalBatch (body : String) : Option (List JSONRPCRequest) :=
  if body = batchBody then
    some [{ JSONRPC := "", ID := some "1", Method := "eth_call", Params := none },
          { JSONRPC := "", ID := some "2", Method := "eth_sendTransaction", Params := none }]
  else if body = allowedBatchBody then
    some [{ JSONRPC := "", ID := some "1", Method := "eth_call", Params := none },
          { JSONRPC := "", ID := some "\"b\"", Method := "eth_call", Params := none }]
  else if body = "[]" then some []
  else none

/-- Decoding of the sample bodies as `JSONRPCRequest`. -/
def sampleUnmarshalSingle (body : String) : Option JSONRPCRequest :=
  if body = callBody then
    some { JSONRPC := "2.0", ID := some "1", Method := "eth_call", Params := some "[]" }
  else if body = sendBody then
    some { JSONRPC := "2.0", ID := some "1", Method := "eth_sendTransaction",
           Params := some "[]" }
  else none

/-- A library instance: real base64, JSON text of strings and scalars, and the
decoding of the sample bodies. -/
def sampleLib : Lib :=
  { unmarshalBatch := sampleUnmarshalBatch,
    unmarshalSingle := sampleUnmarshalSingle,
    jsonString := sampleJSONString,
    jsonCompact := sampleCompact,
    EncodeToString := sampleEncodeToString,
    DecodeString := sampleDecodeString,
    newRequestOK := fun url => !url.data.isEmpty,
    compact_null := by decide,
    batch_ids_valid := (by
      intro body requests h req hreq raw hraw
      unfold sampleUnmarshalBatch at h
      split at h
      · cases h
        simp only [List.mem_cons, List.mem_singleton, List.not_mem_nil, or_false] at hreq
        rcases hreq with rfl | rfl
        · cases hraw; exact ⟨"1", by decide⟩
        · cases hraw; exact ⟨"2", by decide⟩
      · split at h
        · cases h
          simp only [List.mem_cons, List.mem_singleton, List.not_mem_nil, or_false] at hreq
          rcases hreq with rfl | rfl
          · cases hraw; exact ⟨"1", by decide⟩
          · cases hraw; exact ⟨"\"b\"", by decide⟩
        · split at h
          · cases h; cases hreq
          · cases h),
    single_id_valid := by
      intro body req h raw hraw
      unfold sampleUnmarshalSingle at h
      split at h
      · cases h; cases hraw; exact ⟨"1", by decide⟩
      · split at h
        · cases h; cases hraw; exact ⟨"1", by decide⟩
        · cases h }

/-- Scenario configuration: only `eth_call` is allowed, no inbound authentication,
upstream credentials `rpc` / `pw`. -/
def sampleConfig : Config :=
  { Listen := "127.0.0.1:8080",
    ProxyAuth := { Enabled := false, Username := "", Password := "" },
    Upstream := { URL := "http://127.0.0.1:8232", Username := "rpc", Password := "pw",
                  Timeout := "" },
    AllowedMethods := ["eth_call"] }

/-- The scenario configuration with inbound authentication `admin` / `secret`. -/
def authConfig : Config :=
  { sampleConfig with ProxyAuth := { Enabled := true, Username := "admin", Password := "secret" } }

/-- The upstream answer of scenario 1. -/
def sampleResponse : UpstreamResponse :=
  { StatusCode := 200,
    Header := [("Content-Type", ["application/json"]), ("X-Node", ["a", "b"])],
    Body := "\x7b\"jsonrpc\":\"2.0\",\"id\":1,\"result\":\"0x1\"\x7d" }

/-- A proxy whose upstream answers every call with the sample response. -/
def sampleProxy : Proxy :=
  { config := sampleConfig, httpClient := fun _ => some sampleResponse }

/-- A proxy whose upstream cannot be reached. -/
def downProxy : Proxy :=
  { config := sampleConfig, httpClient := fun _ => none }

/-- A proxy with inbound authentication enabled. -/
def authProxy : Proxy :=
  { config := authConfig, httpClient := fun _ => some sampleResponse }

/-- An inbound POST with a body and no headers. -/
def postCall (body : String) : Request :=
  { Method := "POST", Header := [], Body := some body }

/-! ## config.go and proxy.go: validation, timeouts, construction -/

/-- Go `func (c *Config) validate() error`: `Except.ok ()` is the nil error. -/
def Config.validate (c : Config) : Except String Unit :=
  if c.Listen == "" then .error "listen address is required"
  else if c.Upstream.URL == "" then .error "upstream URL is required"
  else if c.AllowedMethods.length == 0 then .error "at least one allowed method is required"
  else if c.ProxyAuth.Enabled then
    if c.ProxyAuth.Username == "" || c.ProxyAuth.Password == "" then
      .error "proxy_auth username and password are required when enabled"
    else .ok ()
  else .ok ()

/-- Go `time.Second`: a `time.Duration` is an `int64` count of nanoseconds. -/
def Second : Int := 1000000000

/-- The value of an `int64` computation: the result modulo `2 ^ 64`, taken in the range
from `-2 ^ 63` to `2 ^ 63 - 1`. -/
def wrapInt64 (x : Int) : Int :=
  (x + 9223372036854775808) % 18446744073709551616 - 9223372036854775808

/-- Go `func (c *Config) GetUpstreamTimeout() time.Duration`. `ParseDuration` is
`time.ParseDuration`: `none` when it returns an error. -/
def Config.GetUpstreamTimeout (ParseDuration : String → Option Int) (c : Config) : Int :=
  if c.Upstream.Timeout == "" then 30 * Second
  else match ParseDuration c.Upstream.Timeout with
    | none => 30 * Second
    | some d => d

/-- Go `func NewProxy(config *Config) *Proxy`. `clientDo timeout` is the `Do` method of
`&http.Client{Timeout: timeout}`. -/
def NewProxy (ParseDuration : String → Option Int)
    (clientDo : Int → UpstreamRequest → Option UpstreamResponse) (config : Config) : Proxy :=
  { config := config, httpClient := clientDo (config.GetUpstreamTimeout ParseDuration) }

/-- The fields of the `http.Server` that `Start` sets; its `Handler` is the proxy. -/
structure Server where
  Addr : String
  ReadTimeout : Int
  WriteTimeout : Int
  IdleTimeout : Int
deriving DecidableEq, Repr

/-- The server that Go `func (p *Proxy) Start() error` builds before it calls
`ListenAndServe`. -/
def Proxy.StartServer (ParseDuration : String → Option Int) (p : Proxy) : Server :=
  { Addr := p.config.Listen,
    ReadTimeout := 30 * Second,
    WriteTimeout := wrapInt64 (p.config.GetUpstreamTimeout ParseDuration + 10 * Second),
    IdleTimeout := 120 * Second }

/-! ## The serialisation of an error envelope, as the specification gives it -/

/-- The text of an error envelope in the words of the specification: an object with
the members `jsonrpc` (the version tag `2.0`), `id` and `error` (an object with `code`
and `message`), in this order, and no member `result`. -/
def errorEnvelopeText (lib : Lib) (idText : String) (code : Int) (message : String) : String :=
  "\x7b\"jsonrpc\":" ++ lib.jsonString "2.0" ++ ",\"id\":" ++ idText ++
    ",\"error\":\x7b\"code\":" ++ toString code ++ ",\"message\":" ++ lib.jsonString message ++
    "\x7d\x7d"

/-- An inbound POST with the right username `admin` and the wrong password `wrong`. -/
def wrongPasswordCall : Request :=
  { Method := "POST", Header := [("Authorization", ["Basic YWRtaW46d3Jvbmc="])],
    Body := some callBody }

/-! ## More sample data -/

/-- The value of a decimal numeral. -/
def decimalValue (digits : List Char) : Nat :=
  digits.foldl (fun n c => 10 * n + (c.toNat - '0'.toNat)) 0

/-- Nanoseconds of a duration unit of `time.ParseDuration`. -/
def unitNanoseconds (u : String) : Option Int :=
  if u = "ns" then some 1
  else if u = "us" then some 1000
  else if u = "ms" then some 1000000
  else if u = "s" then some 1000000000
  else if u = "m" then some 60000000000
  else if u = "h" then some 3600000000000
  else none

/-- Parsing of durations written as one unsigned decimal numeral and one unit, such as
`45s`; other texts, and values above the largest `int64`, are errors. -/
def sampleParseDuration (s : String) : Option Int :=
  let digits := s.data.takeWhile Char.isDigit
  if digits.isEmpty then none
  else match unitNanoseconds ⟨s.data.dropWhile Char.isDigit⟩ with
    | none => none
    | some u =>
      if (decimalValue digits : Int) * u ≤ 9223372036854775807 then
        some ((decimalValue digits : Int) * u)
      else none

/-- A client whose answer does not depend on its timeout. -/
def sampleClientDo (_timeout : Int) (_req : UpstreamRequest) : Option UpstreamResponse :=
  some sampleResponse

/-- The scenario configuration with an upstream timeout of 45 seconds. -/
def timeoutConfig : Config :=
  { sampleConfig with Upstream := { sampleConfig.Upstream with Timeout := "45s" } }

/-- An upstream answer with the status code 99, which the client of `net/http` takes
from the status line `HTTP/1.1 099` and returns. -/
def oddStatusResponse : UpstreamResponse :=
  { sampleResponse with StatusCode := 99 }

/-- A proxy whose upstream answers every call with the status code 99. -/
def oddStatusProxy : Proxy :=
  { config := sampleConfig, httpClient := fun _ => some oddStatusResponse }

/-- The scenario configuration with two allowed methods. -/
def twoMethodConfig : Config :=
  { sampleConfig with AllowedMethods := ["eth_call", "eth_blockNumber"] }

/-- The same allowed methods in another order, one of them twice. -/
def repeatedMethodConfig : Config :=
  { sampleConfig with AllowedMethods := ["eth_blockNumber", "eth_call", "eth_blockNumber"] }

/-- Result of the scheme scan of `net/url`: a scheme ends at a colon, there is no
scheme, or the text starts with a colon. -/
inductive SchemeScan where
  | scheme
  | noScheme
  | missing
deriving DecidableEq, Repr

/-- The scheme scan of `net/url`: letters, and after the first character digits, `+`,
`-` and `.`, up to a colon. -/
def scanScheme : Bool → List Char → SchemeScan
  | _, [] => .noScheme
  | first, c :: cs =>
    if c.isAlpha then scanScheme false cs
    else if c.isDigit || c = '+' || c = '-' || c = '.' then
      if first then .noScheme else scanScheme false cs
    else if c = ':' then
      if first then .missing else .scheme
    else .noScheme

/-- The scheme and first-segment checks of `url.Parse`, which `http.NewRequest` calls:
a text that starts with a colon is rejected, and so is a text without a scheme that
does not start with a slash and has a colon before its first slash. Other syntax
errors are not looked for. -/
def sampleURLOK (url : String) : Bool :=
  match scanScheme true url.data with
  | .scheme => true
  | .missing => false
  | .noScheme =>
    match url.data with
    | '/' :: _ => true
    | cs => !((cs.takeWhile (fun c => !(c = '/'))).contains ':')

/-- The sample library with the URL checks of `net/url`. -/
def urlLib : Lib :=
  { sampleLib with newRequestOK := sampleURLOK }

/-- The scenario configuration with an upstream address written without a scheme. -/
def hostPortConfig : Config :=
  { sampleConfig with Upstream := { sampleConfig.Upstream with URL := "127.0.0.1:8232" } }

/-- A proxy for the address without a scheme. -/
def hostPortProxy : Proxy :=
  { config := hostPortConfig, httpClient := fun _ => some sampleResponse }

/-- Inbound authentication with a password that contains a colon. -/
def colonConfig : Config :=
  { sampleConfig with ProxyAuth := { Enabled := true, Username := "admin", Password := "a:b" } }

/-- A proxy whose inbound password contains a colon. -/
def colonProxy : Proxy :=
  { config := colonConfig, httpClient := fun _ => some sampleResponse }

/-! ## Lemmas on the response writer and the encoder -/

theorem empty_append_string (s : String) : "" ++ s = s := by
  apply String.ext
  simp

/-- On a writer that has sent no status, `WriteHeader` with a code that is accepted
and not informational sends that status. -/
theorem WriteHeader_unsent (header : Header) (body : String) (code : Nat)
    (valid : (checkWriteHeaderCode code && !(isInformational code)) = true) :
    ResponseWriter.WriteHeader { header := header, status := none, body := body } code =
      some { header := header, status := some code, body := body } := by
  simp only [Bool.and_eq_true, Bool.not_eq_true'] at valid
  simp [ResponseWriter.WriteHeader, valid.1, valid.2]

/-- On a writer that has sent no status, `WriteHeader` with a code that is not
accepted panics. -/
theorem WriteHeader_refused (header : Header) (body : String) (code : Nat)
    (refused : checkWriteHeaderCode code = false) :
    ResponseWriter.WriteHeader { header := header, status := none, body := body } code =
      none := by
  simp [ResponseWriter.WriteHeader, refused]

/-- The first write on a writer that has sent no status sends status 200. -/
theorem Write_unsent (header : Header) (body b : String) :
    ResponseWriter.Write { header := header, status := none, body := body } b =
      { header := header, status := some 200, body := body ++ b } := by
  simp [ResponseWriter.Write, WriteHeader_unsent header body 200 rfl]

/-- A write on a writer that has sent its status adds to the body. -/
theorem Write_sent (header : Header) (code : Nat) (body b : String) :
    ResponseWriter.Write { header := header, status := some code, body := body } b =
      { header := header, status := some code, body := body ++ b } := by
  simp [ResponseWriter.Write, ResponseWriter.WriteHeader]

/-- A successful marshalling starts with an opening brace. -/
theorem marshalResponse_head (lib : Lib) (resp : JSONRPCResponse) (text : String)
    (h : marshalResponse lib resp = some text) : ∃ rest, text = "\x7b" ++ rest := by
  unfold marshalResponse at h
  split at h
  · cases h
  · split at h
    · cases h
    · simp only [Option.some.injEq] at h
      exact ⟨_, by rw [← h, String.append_assoc]⟩

/-- The error envelope that `sendError` builds marshals whenever its id does. -/
theorem marshalResponse_error (lib : Lib) (raw idText : String) (code : Int) (message : String)
    (h : lib.jsonCompact raw = some idText) :
    ∃ text, marshalResponse lib
      { JSONRPC := "2.0", ID := some raw, Result := none,
        Error := some { Code := code, Message := message } } = some text := by
  simp [marshalResponse, marshalRaw, marshalResultMember, h]

/-- What `sendError` leaves in a fresh writer when the envelope marshals. -/
theorem sendError_fresh (lib : Lib) (id : Option String) (code : Int) (message text : String)
    (h : marshalResponse lib
      { JSONRPC := "2.0", ID := some (id.getD "null"), Result := none,
        Error := some { Code := code, Message := message } } = some text) :
    Proxy.sendError lib ResponseWriter.fresh id code message =
      { header := [("Content-Type", ["application/json"])], status := some 200,
        body := text ++ "\n" } := by
  cases id <;>
    simp_all [Proxy.sendError, ResponseWriter.Encode, ResponseWriter.SetHeader,
      ResponseWriter.fresh, Header.Set, Header.Del, WriteHeader_unsent _ _ 200 rfl, Write_sent,
      empty_append_string]

/-- What `http.Error` leaves in a writer that has sent nothing yet. -/
theorem httpError_unsent (header : Header) (error : String) (code : Nat)
    (valid : (checkWriteHeaderCode code && !(isInformational code)) = true) :
    httpError { header := header, status := none, body := "" } error code valid =
      { header := (((header.Del "Content-Length").Set "Content-Type"
          "text/plain; charset=utf-8").Set "X-Content-Type-Options" "nosniff"),
        status := some code, body := error ++ "\n" } := by
  simp [httpError, ResponseWriter.SetHeader, WriteHeader_unsent _ _ code valid, Write_sent,
    empty_append_string]

/-- No marshalled response followed by a newline is a text that starts with a letter
of the two `http.Error` messages. -/
theorem not_envelope_of_head (lib : Lib) (c : Char) (cs : List Char) (hc : c ≠ '\x7b')
    (resp : JSONRPCResponse) (text : String) (h : marshalResponse lib resp = some text) :
    (⟨c :: cs⟩ : String) ≠ text ++ "\n" := by
  obtain ⟨rest, rfl⟩ := marshalResponse_head lib resp text h
  intro heq
  have hd := congrArg String.data heq
  simp only [String.data_append] at hd
  have hd2 : c :: cs = '\x7b' :: (rest.data ++ "\n".data) := hd
  exact hc (List.cons.inj hd2).1

/-! ## Lemmas on the handler -/

/-- The handler after the method and authentication checks and the body read. -/
theorem ServeHTTP_of_post (lib : Lib) (p : Proxy) (w : ResponseWriter) (r : Request)
    (body : String) (hpost : r.Method = "POST")
    (hauth : p.config.ProxyAuth.Enabled = true → p.checkProxyAuth lib r = true)
    (hbody : r.Body = some body) :
    p.ServeHTTP lib w r =
      match parseRequests lib body with
      | none =>
        { w := Proxy.sendError lib w none (-32700) "Parse error: invalid JSON", calls := [] }
      | some requests =>
        match blockedRequest p.config requests with
        | some req =>
          { w := Proxy.sendError lib w req.ID (-32601) ("Method not allowed: " ++ req.Method),
            calls := [] }
        | none => p.forwardRequest lib w body := by
  unfold Proxy.ServeHTTP
  have h1 : (r.Method != "POST") = false := by simp [hpost]
  have h2 : (p.config.ProxyAuth.Enabled && !(p.checkProxyAuth lib r)) = false := by
    cases he : p.config.ProxyAuth.Enabled
    · simp
    · simp [hauth he]
  simp only [h1, h2, hbody, Bool.false_eq_true, if_false]

/-- The two ways in which a body decodes to a list of requests. -/
theorem parseRequests_of_decode (lib : Lib) (body : String) (requests : List JSONRPCRequest)
    (h : lib.unmarshalBatch body = some requests ∨
      (lib.unmarshalBatch body = none ∧
        ∃ single, lib.unmarshalSingle body = some single ∧ requests = [single])) :
    parseRequests lib body = some requests := by
  unfold parseRequests
  rcases h with h | ⟨h1, single, h2, rfl⟩
  · simp [h]
  · simp [h1, h2]

/-- Every raw id of a decoded list of requests is valid JSON. -/
theorem parseRequests_ids_valid (lib : Lib) (body : String) (requests : List JSONRPCRequest)
    (h : parseRequests lib body = some requests) (req : JSONRPCRequest) (hreq : req ∈ requests) :
    ∃ text, lib.jsonCompact (req.ID.getD "null") = some text := by
  have key : ∀ raw, req.ID = some raw → ∃ text, lib.jsonCompact raw = some text := by
    unfold parseRequests at h
    split at h
    · next rs hb =>
      cases h
      exact lib.batch_ids_valid body _ hb req hreq
    · next hb =>
      split at h
      · cases h
      · next single hs =>
        cases h
        simp only [List.mem_singleton] at hreq
        subst hreq
        exact lib.single_id_valid body _ hs
  cases hid : req.ID with
  | none => exact ⟨"null", by simpa using lib.compact_null⟩
  | some raw => simpa using key raw hid

/-- The method loop returns at the first request whose method is not allowed. -/
theorem blockedRequest_split (c : Config) (pre post : List JSONRPCRequest) (req : JSONRPCRequest)
    (hpre : ∀ x ∈ pre, c.IsMethodAllowed x.Method = true)
    (hreq : c.IsMethodAllowed req.Method = false) :
    blockedRequest c (pre ++ req :: post) = some req := by
  induction pre with
  | nil => simp [blockedRequest, hreq]
  | cons x xs ih =>
    have hx : c.IsMethodAllowed x.Method = true := hpre x (List.mem_cons_self _ _)
    simp only [List.cons_append, blockedRequest, hx, Bool.not_true, Bool.false_eq_true, if_false]
    exact ih (fun y hy => hpre y (List.mem_cons_of_mem _ hy))

/-- The method loop runs to its end exactly when every method is allowed. -/
theorem blockedRequest_eq_none (c : Config) (requests : List JSONRPCRequest) :
    blockedRequest c requests = none ↔ ∀ x ∈ requests, c.IsMethodAllowed x.Method = true := by
  induction requests with
  | nil => simp [blockedRequest]
  | cons x xs ih =>
    cases hx : c.IsMethodAllowed x.Method <;> simp [blockedRequest, hx, ih]

/-- A request at which the method loop returns is in the list and is not allowed. -/
theorem blockedRequest_some (c : Config) (requests : List JSONRPCRequest) (req : JSONRPCRequest)
    (h : blockedRequest c requests = some req) :
    req ∈ requests ∧ c.IsMethodAllowed req.Method = false := by
  induction requests with
  | nil => simp [blockedRequest] at h
  | cons x xs ih =>
    cases hx : c.IsMethodAllowed x.Method
    · simp [blockedRequest, hx] at h
      subst h
      exact ⟨List.mem_cons_self _ _, hx⟩
    · simp [blockedRequest, hx] at h
      exact ⟨List.mem_cons_of_mem _ (ih h).1, (ih h).2⟩

/-- The handler on a decoded body at which the method loop returns. -/
theorem ServeHTTP_blocked (lib : Lib) (p : Proxy) (r : Request) (body : String)
    (requests : List JSONRPCRequest) (req : JSONRPCRequest) (hpost : r.Method = "POST")
    (hauth : p.config.ProxyAuth.Enabled = true → p.checkProxyAuth lib r = true)
    (hbody : r.Body = some body) (hparse : parseRequests lib body = some requests)
    (hblocked : blockedRequest p.config requests = some req) :
    ∃ text,
      marshalResponse lib
        { JSONRPC := "2.0", ID := some (req.ID.getD "null"), Result := none,
          Error := some { Code := -32601, Message := "Method not allowed: " ++ req.Method } }
        = some text ∧
      p.ServeHTTP lib ResponseWriter.fresh r =
        { w := { header := [("Content-Type", ["application/json"])], status := some 200,
                 body := text ++ "\n" },
          calls := [] } := by
  obtain ⟨idText, hid⟩ :=
    parseRequests_ids_valid lib body requests hparse req (blockedRequest_some _ _ _ hblocked).1
  obtain ⟨text, htext⟩ := marshalResponse_error lib (req.ID.getD "null") idText (-32601)
    ("Method not allowed: " ++ req.Method) hid
  refine ⟨text, htext, ?_⟩
  rw [ServeHTTP_of_post lib p _ r body hpost hauth hbody]
  simp only [hparse, hblocked]
  rw [sendError_fresh lib req.ID (-32601) _ text htext]

/-- A cut splits the text around the separator. -/
theorem cutAt_eq_some (sep : Char) (l a b : List Char) (h : cutAt sep l = some (a, b)) :
    l = a ++ sep :: b := by
  induction l generalizing a with
  | nil => simp [cutAt] at h
  | cons c cs ih =>
    unfold cutAt at h
    split at h
    · next hc =>
      simp only [Option.some.injEq, Prod.mk.injEq] at h
      obtain ⟨rfl, rfl⟩ := h
      simp [hc]
    · split at h
      · cases h
      · next a1 b1 hcut =>
        simp only [Option.some.injEq, Prod.mk.injEq] at h
        obtain ⟨rfl, rfl⟩ := h
        simp [ih a1 hcut]

/-- A split into two parts splits the text around a colon. -/
theorem SplitN2_pair (d user pass : String) (h : SplitN2 d ':' = [user, pass]) :
    d = user ++ ":" ++ pass := by
  unfold SplitN2 at h
  split at h
  · simp at h
  · next a b hcut =>
    simp only [List.cons.injEq, and_true] at h
    obtain ⟨rfl, rfl⟩ := h
    apply String.ext
    simp only [String.data_append]
    rw [cutAt_eq_some ':' d.data a b hcut]
    simp

/-- The inbound check succeeds exactly on a non-empty `Basic ` header whose payload
decodes to a text that splits at its first colon into the configured credentials. -/
theorem checkProxyAuth_eq_true_iff (lib : Lib) (p : Proxy) (r : Request) :
    p.checkProxyAuth lib r = true ↔
      r.Header.Get "Authorization" ≠ "" ∧
      HasPrefix (r.Header.Get "Authorization") "Basic " = true ∧
      ∃ decoded, lib.DecodeString (sliceFrom (r.Header.Get "Authorization") 6) = some decoded ∧
        SplitN2 decoded ':' = [p.config.ProxyAuth.Username, p.config.ProxyAuth.Password] := by
  unfold Proxy.checkProxyAuth
  by_cases h1 : r.Header.Get "Authorization" = ""
  · simp [h1]
  · cases h2 : HasPrefix (r.Header.Get "Authorization") "Basic "
    · simp [h1, h2]
    · cases h3 : lib.DecodeString (sliceFrom (r.Header.Get "Authorization") 6) with
      | none => simp [h1, h2, h3]
      | some decoded =>
        simp only [h1, h2, h3, beq_iff_eq, if_false, Bool.not_true, Bool.false_eq_true,
          ne_eq, not_false_eq_true, true_and, Option.some.injEq, exists_eq_left']
        unfold SplitN2
        cases hcut : cutAt ':' decoded.data with
        | none => simp
        | some ab => simp

/-- The values of a key in two header lists, one after the other. -/
theorem Header.Values_append (a b : Header) (key : String) :
    Header.Values (a ++ b) key = Header.Values a key ++ Header.Values b key := by
  induction a with
  | nil => simp [Header.Values]
  | cons e rest ih =>
    obtain ⟨k, vs⟩ := e
    by_cases hk : k = key <;> simp [Header.Values, hk, ih]

/-- The inner copy loop adds the values of one upstream header, in order. -/
theorem copyValues_spec (k : String) (values : List String) (w : ResponseWriter) (key : String) :
    (copyValues k values w).header.Values key =
        w.header.Values key ++ Header.Values [(k, values)] key ∧
      (copyValues k values w).status = w.status ∧ (copyValues k values w).body = w.body := by
  induction values generalizing w with
  | nil => by_cases hk : k = key <;> simp [copyValues, Header.Values, hk]
  | cons v rest ih =>
    obtain ⟨h1, h2, h3⟩ := ih (w.AddHeader k v)
    refine ⟨?_, ?_, ?_⟩
    · rw [copyValues, h1]
      by_cases hk : k = key <;>
        simp [ResponseWriter.AddHeader, Header.Add, Header.Values_append, Header.Values, hk]
    · rw [copyValues, h2]; rfl
    · rw [copyValues, h3]; rfl

/-- The copy loop adds the values of every upstream header and nothing else. -/
theorem copyHeaders_spec (h : Header) (w : ResponseWriter) (key : String) :
    (copyHeaders h w).header.Values key = w.header.Values key ++ Header.Values h key ∧
      (copyHeaders h w).status = w.status ∧ (copyHeaders h w).body = w.body := by
  induction h generalizing w with
  | nil => simp [copyHeaders, Header.Values]
  | cons e rest ih =>
    obtain ⟨k, values⟩ := e
    obtain ⟨h1, h2, h3⟩ := ih (copyValues k values w)
    obtain ⟨g1, g2, g3⟩ := copyValues_spec k values w key
    refine ⟨?_, ?_, ?_⟩
    · rw [copyHeaders, h1, g1]
      by_cases hk : k = key <;> simp [Header.Values, hk]
    · rw [copyHeaders, h2, g2]
    · rw [copyHeaders, h3, g3]

/-- The handler on a decoded body whose methods are all allowed is the forwarding. -/
theorem ServeHTTP_forwarded (lib : Lib) (p : Proxy) (w : ResponseWriter) (r : Request)
    (body : String) (requests : List JSONRPCRequest) (hpost : r.Method = "POST")
    (hauth : p.config.ProxyAuth.Enabled = true → p.checkProxyAuth lib r = true)
    (hbody : r.Body = some body) (hparse : parseRequests lib body = some requests)
    (hallowed : ∀ x ∈ requests, p.config.IsMethodAllowed x.Method = true) :
    p.ServeHTTP lib w r = p.forwardRequest lib w body := by
  rw [ServeHTTP_of_post lib p w r body hpost hauth hbody]
  simp only [hparse, (blockedRequest_eq_none p.config requests).2 hallowed]

/-- The forwarding when the client returns a response: the headers are copied, then
`WriteHeader` panics or the status and the body are written. -/
theorem forwardRequest_response (lib : Lib) (p : Proxy) (w : ResponseWriter) (body : String)
    (resp : UpstreamResponse) (hn : lib.newRequestOK p.config.Upstream.URL = true)
    (hc : p.httpClient (p.upstreamRequest lib body) = some resp) :
    p.forwardRequest lib w body =
      match (copyHeaders resp.Header w).WriteHeader resp.StatusCode with
      | none =>
        { w := copyHeaders resp.Header w, calls := [p.upstreamRequest lib body],
          panicked := true }
      | some w2 => { w := w2.Write resp.Body, calls := [p.upstreamRequest lib body] } := by
  simp [Proxy.forwardRequest, hn, hc]

/-- The forwarding hands the request it builds to the upstream client once the request
is built, whatever the client answers. -/
theorem forwardRequest_calls_built (lib : Lib) (p : Proxy) (w : ResponseWriter) (body : String)
    (hn : lib.newRequestOK p.config.Upstream.URL = true) :
    (p.forwardRequest lib w body).calls = [p.upstreamRequest lib body] := by
  cases hc : p.httpClient (p.upstreamRequest lib body) with
  | none => simp [Proxy.forwardRequest, hn, hc]
  | some resp =>
    rw [forwardRequest_response lib p w body resp hn hc]
    split <;> rfl

/-- The forwarding hands at most the request it builds to the upstream client. -/
theorem forwardRequest_calls (lib : Lib) (p : Proxy) (w : ResponseWriter) (body : String)
    (q : UpstreamRequest) (hq : q ∈ (p.forwardRequest lib w body).calls) :
    q = p.upstreamRequest lib body := by
  cases hn : lib.newRequestOK p.config.Upstream.URL
  · simp [Proxy.forwardRequest, hn] at hq
  · rw [forwardRequest_calls_built lib p w body hn] at hq
    simpa using hq

/-- Every request handed to the upstream client is the one `forwardRequest` builds
from the inbound body. -/
theorem ServeHTTP_calls (lib : Lib) (p : Proxy) (w : ResponseWriter) (r : Request)
    (q : UpstreamRequest) (hq : q ∈ (p.ServeHTTP lib w r).calls) :
    ∃ body, r.Body = some body ∧ q = p.upstreamRequest lib body := by
  unfold Proxy.ServeHTTP at hq
  split at hq
  · simp at hq
  · split at hq
    · simp at hq
    · split at hq
      · simp at hq
      · next body hbody =>
        refine ⟨body, hbody, ?_⟩
        split at hq
        · simp at hq
        · split at hq
          · simp at hq
          · exact forwardRequest_calls lib p w body q hq

/-- The forwarding on a fresh writer when the request cannot be built or the client
returns an error: the internal-error envelope with a nil id. -/
theorem forwardRequest_failed (lib : Lib) (p : Proxy) (body : String)
    (hfail : lib.newRequestOK p.config.Upstream.URL = false ∨
      p.httpClient (p.upstreamRequest lib body) = none) :
    ∃ message text,
      (message = "Internal error: failed to create upstream request" ∨
        message = "Internal error: upstream connection failed") ∧
      marshalResponse lib
        { JSONRPC := "2.0", ID := some "null", Result := none,
          Error := some { Code := -32603, Message := message } } = some text ∧
      (p.forwardRequest lib ResponseWriter.fresh body).w =
        { header := [("Content-Type", ["application/json"])], status := some 200,
          body := text ++ "\n" } := by
  cases hn : lib.newRequestOK p.config.Upstream.URL with
  | false =>
    obtain ⟨text, htext⟩ := marshalResponse_error lib "null" "null" (-32603)
      "Internal error: failed to create upstream request" lib.compact_null
    refine ⟨_, text, Or.inl rfl, htext, ?_⟩
    simp only [Proxy.forwardRequest, hn, Bool.not_false, if_true]
    rw [sendError_fresh lib none (-32603) _ text htext]
  | true =>
    have hc : p.httpClient (p.upstreamRequest lib body) = none := by
      rcases hfail with h | h
      · rw [hn] at h; cases h
      · exact h
    obtain ⟨text, htext⟩ := marshalResponse_error lib "null" "null" (-32603)
      "Internal error: upstream connection failed" lib.compact_null
    refine ⟨_, text, Or.inr rfl, htext, ?_⟩
    simp only [Proxy.forwardRequest, hn, hc, Bool.not_true, Bool.false_eq_true, if_false]
    rw [sendError_fresh lib none (-32603) _ text htext]

/-! ## The claims -/

/-- C1: a POST call that passes inbound authentication and whose body decodes to a
batch, or to a single request, in which some method is not allowed is answered with
status 200 and exactly one marshalled error envelope with code -32601, for a request
of the batch whose method is not allowed; no request is handed to the upstream
client. -/
theorem C1_disallowed_method_rejects_envelope (lib : Lib) (p : Proxy) (r : Request)
    (body : String) (requests : List JSONRPCRequest)
    (hpost : r.Method = "POST")
    (hauth : p.config.ProxyAuth.Enabled = true → p.checkProxyAuth lib r = true)
    (hbody : r.Body = some body)
    (hdecode : lib.unmarshalBatch body = some requests ∨
      (lib.unmarshalBatch body = none ∧
        ∃ single, lib.unmarshalSingle body = some single ∧ requests = [single]))
    (hbad : ∃ req ∈ requests, p.config.IsMethodAllowed req.Method = false) :
    ∃ req text, req ∈ requests ∧ p.config.IsMethodAllowed req.Method = false ∧
      marshalResponse lib
        { JSONRPC := "2.0", ID := some (req.ID.getD "null"), Result := none,
          Error := some { Code := -32601, Message := "Method not allowed: " ++ req.Method } }
        = some text ∧
      (p.ServeHTTP lib ResponseWriter.fresh r).w =
        { header := [("Content-Type", ["application/json"])], status := some 200,
          body := text ++ "\n" } ∧
      (p.ServeHTTP lib ResponseWriter.fresh r).calls = [] := by
  have hparse := parseRequests_of_decode lib body requests hdecode
  cases hb : blockedRequest p.config requests with
  | none =>
    obtain ⟨req, hmem, hreq⟩ := hbad
    rw [(blockedRequest_eq_none p.config requests).1 hb req hmem] at hreq
    cases hreq
  | some req =>
    obtain ⟨text, htext, hserve⟩ :=
      ServeHTTP_blocked lib p r body requests req hpost hauth hbody hparse hb
    obtain ⟨hmem, hreq⟩ := blockedRequest_some _ _ _ hb
    exact ⟨req, text, hmem, hreq, htext, by rw [hserve], by rw [hserve]⟩

/-- C1 at the batch of scenario 5, where only `eth_call` is allowed. -/
theorem C1_disallowed_method_rejects_envelope_witness :
    (postCall batchBody).Method = "POST" ∧
    (sampleProxy.config.ProxyAuth.Enabled = true →
      sampleProxy.checkProxyAuth sampleLib (postCall batchBody) = true) ∧
    (postCall batchBody).Body = some batchBody ∧
    (∃ req ∈ [({ JSONRPC := "", ID := some "1", Method := "eth_call", Params := none } :
                JSONRPCRequest),
              { JSONRPC := "", ID := some "2", Method := "eth_sendTransaction", Params := none }],
      sampleProxy.config.IsMethodAllowed req.Method = false) ∧
    ∃ req text,
      req ∈ [({ JSONRPC := "", ID := some "1", Method := "eth_call", Params := none } :
                JSONRPCRequest),
              { JSONRPC := "", ID := some "2", Method := "eth_sendTransaction", Params := none }] ∧
      sampleProxy.config.IsMethodAllowed req.Method = false ∧
      marshalResponse sampleLib
        { JSONRPC := "2.0", ID := some (req.ID.getD "null"), Result := none,
          Error := some { Code := -32601, Message := "Method not allowed: " ++ req.Method } }
        = some text ∧
      (sampleProxy.ServeHTTP sampleLib ResponseWriter.fresh (postCall batchBody)).w =
        { header := [("Content-Type", ["application/json"])], status := some 200,
          body := text ++ "\n" } ∧
      (sampleProxy.ServeHTTP sampleLib ResponseWriter.fresh (postCall batchBody)).calls = [] :=
  ⟨by decide, by decide, by decide, by decide,
    C1_disallowed_method_rejects_envelope sampleLib sampleProxy (postCall batchBody) batchBody _
      (by decide) (by decide) (by decide) (Or.inl (by decide)) (by decide)⟩

/-- C2: when the decoded requests are `pre ++ req :: post`, every method of `pre` is
allowed and the method of `req` is not, the envelope of the rejection carries the id
of `req` (`null` when `req` has no id) and the message `Method not allowed: ` followed
by the method of `req`, whatever the ids of the first and last requests are. -/
theorem C2_rejection_names_first_offender (lib : Lib) (p : Proxy) (r : Request)
    (body : String) (pre post : List JSONRPCRequest) (req : JSONRPCRequest)
    (hpost : r.Method = "POST")
    (hauth : p.config.ProxyAuth.Enabled = true → p.checkProxyAuth lib r = true)
    (hbody : r.Body = some body)
    (hdecode : lib.unmarshalBatch body = some (pre ++ req :: post) ∨
      (lib.unmarshalBatch body = none ∧
        ∃ single, lib.unmarshalSingle body = some single ∧ pre ++ req :: post = [single]))
    (hpre : ∀ x ∈ pre, p.config.IsMethodAllowed x.Method = true)
    (hreq : p.config.IsMethodAllowed req.Method = false) :
    ∃ text,
      marshalResponse lib
        { JSONRPC := "2.0", ID := some (req.ID.getD "null"), Result := none,
          Error := some { Code := -32601, Message := "Method not allowed: " ++ req.Method } }
        = some text ∧
      (p.ServeHTTP lib ResponseWriter.fresh r).w =
        { header := [("Content-Type", ["application/json"])], status := some 200,
          body := text ++ "\n" } := by
  have hparse := parseRequests_of_decode lib body _ hdecode
  obtain ⟨text, htext, hserve⟩ := ServeHTTP_blocked lib p r body _ req hpost hauth hbody hparse
    (blockedRequest_split p.config pre post req hpre hreq)
  exact ⟨text, htext, by rw [hserve]⟩

/-- C2 at the batch of scenario 5: the envelope carries id 2, the id of the second
request, not id 1 of the first. -/
theorem C2_rejection_names_first_offender_witness :
    (sampleProxy.ServeHTTP sampleLib ResponseWriter.fresh (postCall batchBody)).w =
      { header := [("Content-Type", ["application/json"])], status := some 200,
        body := "\x7b\"jsonrpc\":\"2.0\",\"id\":2,\"error\":\x7b\"code\":-32601," ++
          "\"message\":\"Method not allowed: eth_sendTransaction\"\x7d\x7d\n" } := by
  obtain ⟨text, htext, hw⟩ :=
    C2_rejection_names_first_offender sampleLib sampleProxy (postCall batchBody) batchBody
      [{ JSONRPC := "", ID := some "1", Method := "eth_call", Params := none }] []
      { JSONRPC := "", ID := some "2", Method := "eth_sendTransaction", Params := none }
      (by decide) (by decide) (by decide) (Or.inl (by decide)) (by decide) (by decide)
  have hmarshal : marshalResponse sampleLib
      { JSONRPC := "2.0", ID := some "2", Result := none,
        Error := some { Code := -32601,
                        Message := "Method not allowed: " ++ "eth_sendTransaction" } } =
      some ("\x7b\"jsonrpc\":\"2.0\",\"id\":2,\"error\":\x7b\"code\":-32601," ++
        "\"message\":\"Method not allowed: eth_sendTransaction\"\x7d\x7d") := by decide
  have ht : text = "\x7b\"jsonrpc\":\"2.0\",\"id\":2,\"error\":\x7b\"code\":-32601," ++
      "\"message\":\"Method not allowed: eth_sendTransaction\"\x7d\x7d" :=
    Option.some.inj (htext.symm.trans hmarshal)
  rw [hw, ht]
  decide

/-- C3: a POST call that passes inbound authentication and whose body decodes neither
as a batch nor as a single request is answered with status 200 and one marshalled
error envelope with code -32700, id `null` and message `Parse error: invalid JSON`;
no request is handed to the upstream client. -/
theorem C3_undecodable_body_is_parse_error (lib : Lib) (p : Proxy) (r : Request)
    (body : String)
    (hpost : r.Method = "POST")
    (hauth : p.config.ProxyAuth.Enabled = true → p.checkProxyAuth lib r = true)
    (hbody : r.Body = some body)
    (hbatch : lib.unmarshalBatch body = none)
    (hsingle : lib.unmarshalSingle body = none) :
    ∃ text,
      marshalResponse lib
        { JSONRPC := "2.0", ID := some "null", Result := none,
          Error := some { Code := -32700, Message := "Parse error: invalid JSON" } }
        = some text ∧
      (p.ServeHTTP lib ResponseWriter.fresh r).w =
        { header := [("Content-Type", ["application/json"])], status := some 200,
          body := text ++ "\n" } ∧
      (p.ServeHTTP lib ResponseWriter.fresh r).calls = [] := by
  obtain ⟨text, htext⟩ := marshalResponse_error lib "null" "null" (-32700)
    "Parse error: invalid JSON" lib.compact_null
  have hparse : parseRequests lib body = none := by simp [parseRequests, hbatch, hsingle]
  have hserve : p.ServeHTTP lib ResponseWriter.fresh r =
      { w := { header := [("Content-Type", ["application/json"])], status := some 200,
               body := text ++ "\n" },
        calls := [] } := by
    rw [ServeHTTP_of_post lib p _ r body hpost hauth hbody]
    simp only [hparse]
    rw [sendError_fresh lib none (-32700) _ text htext]
  exact ⟨text, htext, by rw [hserve], by rw [hserve]⟩

/-- C3 at the body of scenario 3. -/
theorem C3_undecodable_body_is_parse_error_witness :
    (postCall "not json").Method = "POST" ∧
    (sampleProxy.config.ProxyAuth.Enabled = true →
      sampleProxy.checkProxyAuth sampleLib (postCall "not json") = true) ∧
    (postCall "not json").Body = some "not json" ∧
    sampleLib.unmarshalBatch "not json" = none ∧
    sampleLib.unmarshalSingle "not json" = none ∧
    ∃ text,
      marshalResponse sampleLib
        { JSONRPC := "2.0", ID := some "null", Result := none,
          Error := some { Code := -32700, Message := "Parse error: invalid JSON" } }
        = some text ∧
      (sampleProxy.ServeHTTP sampleLib ResponseWriter.fresh (postCall "not json")).w =
        { header := [("Content-Type", ["application/json"])], status := some 200,
          body := text ++ "\n" } ∧
      (sampleProxy.ServeHTTP sampleLib ResponseWriter.fresh (postCall "not json")).calls = [] :=
  ⟨by decide, by decide, by decide, by decide, by decide,
    C3_undecodable_body_is_parse_error sampleLib sampleProxy (postCall "not json") "not json"
      (by decide) (by decide) (by decide) (by decide) (by decide)⟩

/-- C4: with inbound authentication enabled, a POST call whose Authorization header
is absent or empty, does not start with `Basic `, has a payload that does not decode
as base64, or decodes to a text other than the configured `username:password` (or one
whose split at the first colon is not the configured pair) is answered by `http.Error`
with status 401, the `WWW-Authenticate` Basic challenge and the plain text
`Unauthorized`, which is not a JSON-RPC envelope; no request is handed to the upstream
client. The body of the call is arbitrary. -/
theorem C4_failed_authentication_is_challenged (lib : Lib) (p : Proxy) (r : Request)
    (hpost : r.Method = "POST")
    (henabled : p.config.ProxyAuth.Enabled = true)
    (hfail : r.Header.Get "Authorization" = "" ∨
      HasPrefix (r.Header.Get "Authorization") "Basic " = false ∨
      lib.DecodeString (sliceFrom (r.Header.Get "Authorization") 6) = none ∨
      ∃ decoded, lib.DecodeString (sliceFrom (r.Header.Get "Authorization") 6) = some decoded ∧
        (decoded ≠ p.config.ProxyAuth.Username ++ ":" ++ p.config.ProxyAuth.Password ∨
          SplitN2 decoded ':' ≠ [p.config.ProxyAuth.Username, p.config.ProxyAuth.Password])) :
    (p.ServeHTTP lib ResponseWriter.fresh r).w =
        { header := [("WWW-Authenticate", ["Basic realm=\"juno-proxy\""]),
                     ("Content-Type", ["text/plain; charset=utf-8"]),
                     ("X-Content-Type-Options", ["nosniff"])],
          status := some 401, body := "Unauthorized\n" } ∧
      (∀ resp text, marshalResponse lib resp = some text →
        (p.ServeHTTP lib ResponseWriter.fresh r).w.body ≠ text ++ "\n") ∧
      (p.ServeHTTP lib ResponseWriter.fresh r).calls = [] := by
  have hcheck : p.checkProxyAuth lib r = false := by
    cases hc : p.checkProxyAuth lib r with
    | false => rfl
    | true =>
      obtain ⟨h1, h2, decoded, h3, h4⟩ := (checkProxyAuth_eq_true_iff lib p r).1 hc
      rcases hfail with h | h | h | ⟨d, hd, h⟩
      · exact absurd h h1
      · rw [h2] at h; cases h
      · rw [h3] at h; cases h
      · rw [h3] at hd
        cases hd
        rcases h with h | h
        · exact absurd (SplitN2_pair _ _ _ h4) h
        · exact absurd h4 h
  have hw : p.ServeHTTP lib ResponseWriter.fresh r =
      { w := { header := [("WWW-Authenticate", ["Basic realm=\"juno-proxy\""]),
                          ("Content-Type", ["text/plain; charset=utf-8"]),
                          ("X-Content-Type-Options", ["nosniff"])],
               status := some 401, body := "Unauthorized\n" },
        calls := [] } := by
    unfold Proxy.ServeHTTP
    rw [if_neg (by simp [hpost]), if_pos (by simp [henabled, hcheck])]
    simp only [ResponseWriter.fresh, ResponseWriter.SetHeader, httpError_unsent]
    decide
  rw [hw]
  refine ⟨rfl, ?_, rfl⟩
  intro resp text h
  exact not_envelope_of_head lib 'U' "nauthorized\n".data (by decide) resp text h

/-- C4 at a call with the right username and a wrong password and a body that is not
JSON. -/
theorem C4_failed_authentication_is_challenged_witness :
    (authProxy.ServeHTTP sampleLib ResponseWriter.fresh
        { Method := "POST", Header := [("Authorization", ["Basic YWRtaW46d3Jvbmc="])],
          Body := some "not json" }).w =
        { header := [("WWW-Authenticate", ["Basic realm=\"juno-proxy\""]),
                     ("Content-Type", ["text/plain; charset=utf-8"]),
                     ("X-Content-Type-Options", ["nosniff"])],
          status := some 401, body := "Unauthorized\n" } ∧
      (∀ resp text, marshalResponse sampleLib resp = some text →
        (authProxy.ServeHTTP sampleLib ResponseWriter.fresh
          { Method := "POST", Header := [("Authorization", ["Basic YWRtaW46d3Jvbmc="])],
            Body := some "not json" }).w.body ≠ text ++ "\n") ∧
      (authProxy.ServeHTTP sampleLib ResponseWriter.fresh
        { Method := "POST", Header := [("Authorization", ["Basic YWRtaW46d3Jvbmc="])],
          Body := some "not json" }).calls = [] :=
  C4_failed_authentication_is_challenged sampleLib authProxy
    { Method := "POST", Header := [("Authorization", ["Basic YWRtaW46d3Jvbmc="])],
      Body := some "not json" }
    (by decide) (by decide)
    (Or.inr (Or.inr (Or.inr ⟨"admin:wrong", by decide, Or.inl (by decide)⟩)))

/-- The relay of an upstream response: for a POST call that passes inbound
authentication and carries a single request with an allowed method, when the upstream
request is built and the client returns a response whose status code `WriteHeader`
accepts as the status of the response, the handler returns and has written that status
code, for every header name exactly the values of that response, in order, and exactly
its body. -/
theorem ServeHTTP_relays_response (lib : Lib) (p : Proxy) (r : Request) (body : String)
    (req : JSONRPCRequest) (resp : UpstreamResponse)
    (hpost : r.Method = "POST")
    (hauth : p.config.ProxyAuth.Enabled = true → p.checkProxyAuth lib r = true)
    (hbody : r.Body = some body)
    (hbatch : lib.unmarshalBatch body = none)
    (hsingle : lib.unmarshalSingle body = some req)
    (hallowed : p.config.IsMethodAllowed req.Method = true)
    (hbuilt : lib.newRequestOK p.config.Upstream.URL = true)
    (hresp : p.httpClient (p.upstreamRequest lib body) = some resp)
    (hstatus : (checkWriteHeaderCode resp.StatusCode &&
      !(isInformational resp.StatusCode)) = true) :
    (p.ServeHTTP lib ResponseWriter.fresh r).panicked = false ∧
      (p.ServeHTTP lib ResponseWriter.fresh r).w.status = some resp.StatusCode ∧
      (∀ key, (p.ServeHTTP lib ResponseWriter.fresh r).w.header.Values key =
        resp.Header.Values key) ∧
      (p.ServeHTTP lib ResponseWriter.fresh r).w.body = resp.Body := by
  have hparse : parseRequests lib body = some [req] :=
    parseRequests_of_decode lib body [req] (Or.inr ⟨hbatch, req, hsingle, rfl⟩)
  have hfw := ServeHTTP_forwarded lib p ResponseWriter.fresh r body [req] hpost hauth hbody hparse
    (by simpa using hallowed)
  have hspec := copyHeaders_spec resp.Header ResponseWriter.fresh
  rw [hfw, forwardRequest_response lib p _ body resp hbuilt hresp]
  generalize copyHeaders resp.Header ResponseWriter.fresh = w1 at hspec
  obtain ⟨header1, status1, body1⟩ := w1
  have hs : status1 = none := (hspec "").2.1
  have hb : body1 = "" := (hspec "").2.2
  subst hs hb
  rw [WriteHeader_unsent header1 "" resp.StatusCode hstatus]
  refine ⟨rfl, ?_, ?_, ?_⟩
  · show (ResponseWriter.Write _ resp.Body).status = _
    rw [Write_sent]
  · intro key
    show (ResponseWriter.Write _ resp.Body).header.Values key = _
    rw [Write_sent]
    simpa [ResponseWriter.fresh, Header.Values] using (hspec key).1
  · show (ResponseWriter.Write _ resp.Body).body = _
    rw [Write_sent]
    exact empty_append_string _

/-- The relay at scenario 1: the allowed call of `eth_call` and the sample upstream
answer with status 200. -/
theorem ServeHTTP_relays_scenario1 :
    (sampleProxy.ServeHTTP sampleLib ResponseWriter.fresh (postCall callBody)).panicked = false ∧
      (sampleProxy.ServeHTTP sampleLib ResponseWriter.fresh (postCall callBody)).w.status =
        some sampleResponse.StatusCode ∧
      (∀ key, (sampleProxy.ServeHTTP sampleLib ResponseWriter.fresh (postCall callBody)).w.header.Values
        key = sampleResponse.Header.Values key) ∧
      (sampleProxy.ServeHTTP sampleLib ResponseWriter.fresh (postCall callBody)).w.body =
        sampleResponse.Body :=
  ServeHTTP_relays_response sampleLib sampleProxy (postCall callBody) callBody
    { JSONRPC := "2.0", ID := some "1", Method := "eth_call", Params := some "[]" }
    sampleResponse (by decide) (by decide) (by decide) (by decide) (by decide) (by decide)
    (by decide) (by decide) (by decide)

/-- An upstream status code that `WriteHeader` refuses: under the hypotheses of the
relay, the handler copies the headers into the header map and ends in the panic of
`WriteHeader`; no status is sent and no body is written. -/
theorem ServeHTTP_refused_status (lib : Lib) (p : Proxy) (r : Request) (body : String)
    (req : JSONRPCRequest) (resp : UpstreamResponse)
    (hpost : r.Method = "POST")
    (hauth : p.config.ProxyAuth.Enabled = true → p.checkProxyAuth lib r = true)
    (hbody : r.Body = some body)
    (hbatch : lib.unmarshalBatch body = none)
    (hsingle : lib.unmarshalSingle body = some req)
    (hallowed : p.config.IsMethodAllowed req.Method = true)
    (hbuilt : lib.newRequestOK p.config.Upstream.URL = true)
    (hresp : p.httpClient (p.upstreamRequest lib body) = some resp)
    (hrefused : checkWriteHeaderCode resp.StatusCode = false) :
    (p.ServeHTTP lib ResponseWriter.fresh r).panicked = true ∧
      (p.ServeHTTP lib ResponseWriter.fresh r).w.status = none ∧
      (p.ServeHTTP lib ResponseWriter.fresh r).w.body = "" := by
  have hparse : parseRequests lib body = some [req] :=
    parseRequests_of_decode lib body [req] (Or.inr ⟨hbatch, req, hsingle, rfl⟩)
  have hfw := ServeHTTP_forwarded lib p ResponseWriter.fresh r body [req] hpost hauth hbody hparse
    (by simpa using hallowed)
  have hspec := copyHeaders_spec resp.Header ResponseWriter.fresh
  rw [hfw, forwardRequest_response lib p _ body resp hbuilt hresp]
  generalize copyHeaders resp.Header ResponseWriter.fresh = w1 at hspec
  obtain ⟨header1, status1, body1⟩ := w1
  have hs : status1 = none := (hspec "").2.1
  have hb : body1 = "" := (hspec "").2.2
  subst hs hb
  rw [WriteHeader_refused header1 "" resp.StatusCode hrefused]
  exact ⟨rfl, rfl, rfl⟩

/-- C5 at the failing input: for the allowed call of scenario 1 and an upstream
response with the status code 99, the handler copies the upstream headers into the
header map and then ends in the panic of `WriteHeader`: it writes no status and no
body, where the claim asks for the status code and the body of the upstream. -/
theorem C5_status_99_panics :
    (postCall callBody).Method = "POST" ∧
    oddStatusProxy.config.ProxyAuth.Enabled = false ∧
    sampleLib.unmarshalBatch callBody = none ∧
    sampleLib.unmarshalSingle callBody =
      some { JSONRPC := "2.0", ID := some "1", Method := "eth_call", Params := some "[]" } ∧
    oddStatusProxy.config.IsMethodAllowed "eth_call" = true ∧
    sampleLib.newRequestOK oddStatusProxy.config.Upstream.URL = true ∧
    oddStatusProxy.httpClient (oddStatusProxy.upstreamRequest sampleLib callBody) =
      some oddStatusResponse ∧
    oddStatusResponse.StatusCode = 99 ∧
    checkWriteHeaderCode 99 = false ∧
    oddStatusProxy.ServeHTTP sampleLib ResponseWriter.fresh (postCall callBody) =
      { w := { header := [("Content-Type", ["application/json"]), ("X-Node", ["a"]),
                          ("X-Node", ["b"])],
               status := none, body := "" },
        calls := [oddStatusProxy.upstreamRequest sampleLib callBody],
        panicked := true } ∧
    (oddStatusProxy.ServeHTTP sampleLib ResponseWriter.fresh (postCall callBody)).w.status ≠
      some oddStatusResponse.StatusCode ∧
    (oddStatusProxy.ServeHTTP sampleLib ResponseWriter.fresh (postCall callBody)).w.body ≠
      oddStatusResponse.Body := by
  decide

/-- C6: every request that the handler hands to the upstream client, for a single
request or a batch, has as its body exactly the inbound body as read. -/
theorem C6_forwarded_body_is_inbound_body (lib : Lib) (p : Proxy) (r : Request)
    (q : UpstreamRequest) (hq : q ∈ (p.ServeHTTP lib ResponseWriter.fresh r).calls) :
    r.Body = some q.Body := by
  obtain ⟨body, hbody, rfl⟩ := ServeHTTP_calls lib p _ r q hq
  rw [hbody]
  unfold Proxy.upstreamRequest
  split <;> rfl

/-- C6 at a batch of two allowed calls, whose body has a blank after the comma. -/
theorem C6_forwarded_body_is_inbound_body_witness :
    sampleProxy.upstreamRequest sampleLib allowedBatchBody ∈
        (sampleProxy.ServeHTTP sampleLib ResponseWriter.fresh (postCall allowedBatchBody)).calls ∧
      (postCall allowedBatchBody).Body =
        some (sampleProxy.upstreamRequest sampleLib allowedBatchBody).Body :=
  ⟨by decide,
    C6_forwarded_body_is_inbound_body sampleLib sampleProxy (postCall allowedBatchBody)
      (sampleProxy.upstreamRequest sampleLib allowedBatchBody) (by decide)⟩

/-- C7: every request that the handler hands to the upstream client has, as the values
of its Authorization header, the single value `Basic ` followed by the base64 encoding
of `username:password` of the upstream configuration when that username is not empty,
and no value when it is empty; the inbound request and the inbound authentication
settings do not enter. -/
theorem C7_upstream_authorization_from_config (lib : Lib) (p : Proxy) (r : Request)
    (q : UpstreamRequest) (hq : q ∈ (p.ServeHTTP lib ResponseWriter.fresh r).calls) :
    q.Header.Values "Authorization" =
      if p.config.Upstream.Username = "" then []
      else ["Basic " ++
        lib.EncodeToString (p.config.Upstream.Username ++ ":" ++ p.config.Upstream.Password)] := by
  obtain ⟨body, _, rfl⟩ := ServeHTTP_calls lib p _ r q hq
  unfold Proxy.upstreamRequest
  by_cases hu : p.config.Upstream.Username = ""
  · simp [hu, Header.Set, Header.Del, Header.Values]
  · simp [hu, Header.Set, Header.Del, Header.Values]

/-- C7 at a call that carries an Authorization header of its own, with inbound
authentication enabled and upstream credentials `rpc` / `pw`. -/
theorem C7_upstream_authorization_from_config_witness :
    authProxy.upstreamRequest sampleLib callBody ∈
        (authProxy.ServeHTTP sampleLib ResponseWriter.fresh
          { Method := "POST", Header := [("Authorization", ["Basic YWRtaW46c2VjcmV0"])],
            Body := some callBody }).calls ∧
      (authProxy.upstreamRequest sampleLib callBody).Header.Values "Authorization" =
        if authProxy.config.Upstream.Username = "" then []
        else ["Basic " ++ sampleLib.EncodeToString
          (authProxy.config.Upstream.Username ++ ":" ++ authProxy.config.Upstream.Password)] :=
  ⟨by decide,
    C7_upstream_authorization_from_config sampleLib authProxy
      { Method := "POST", Header := [("Authorization", ["Basic YWRtaW46c2VjcmV0"])],
        Body := some callBody }
      (authProxy.upstreamRequest sampleLib callBody) (by decide)⟩

/-- C8 as stated fails: for the allowed call of scenario 1, which carries id 1, and an
upstream that cannot be reached, the error envelope carries id `null`; it is not an
error envelope with id 1, whatever its code and message. -/
theorem C8_counterexample :
    sampleLib.unmarshalBatch callBody = none ∧
    sampleLib.unmarshalSingle callBody =
      some { JSONRPC := "2.0", ID := some "1", Method := "eth_call", Params := some "[]" } ∧
    downProxy.config.IsMethodAllowed "eth_call" = true ∧
    downProxy.httpClient (downProxy.upstreamRequest sampleLib callBody) = none ∧
    (downProxy.ServeHTTP sampleLib ResponseWriter.fresh (postCall callBody)).w.body =
      "\x7b\"jsonrpc\":\"2.0\",\"id\":null,\"error\":\x7b\"code\":-32603," ++
        "\"message\":\"Internal error: upstream connection failed\"\x7d\x7d\n" ∧
    ¬ ∃ code message text,
      marshalResponse sampleLib
        { JSONRPC := "2.0", ID := some "1", Result := none,
          Error := some { Code := code, Message := message } } = some text ∧
      (downProxy.ServeHTTP sampleLib ResponseWriter.fresh (postCall callBody)).w.body =
        text ++ "\n" := by
  refine ⟨by decide, by decide, by decide, by decide, by decide, ?_⟩
  rintro ⟨code, message, text, htext, hbody⟩
  have hb : (downProxy.ServeHTTP sampleLib ResponseWriter.fresh (postCall callBody)).w.body =
      "\x7b\"jsonrpc\":\"2.0\",\"id\":null,\"error\":\x7b\"code\":-32603," ++
        "\"message\":\"Internal error: upstream connection failed\"\x7d\x7d\n" := by decide
  rw [hb] at hbody
  have hm : marshalResponse sampleLib
      { JSONRPC := "2.0", ID := some "1", Result := none,
        Error := some { Code := code, Message := message } } =
      some ("\x7b" ++ ("\"jsonrpc\":" ++ sampleJSONString "2.0" ++ "," ++
        ("\"id\":" ++ "1" ++ "," ++ ("\"error\":" ++ marshalError sampleLib
          { Code := code, Message := message }))) ++ "\x7d") := by
    have hc : sampleLib.jsonCompact "1" = some "1" := by decide
    have hv : ("2.0" : String).data ≠ [] := by decide
    simp only [marshalResponse, marshalRaw, marshalResultMember, hc]
    rw [if_neg hv]
    rfl
  rw [hm] at htext
  have ht := Option.some.inj htext
  rw [← ht] at hbody
  have hd := congrArg (fun t : String => t.data.drop 22) hbody
  simp only [String.data_append] at hd
  have hl : (("\x7b\"jsonrpc\":\"2.0\",\"id\":null,\"error\":\x7b\"code\":-32603," : String).data ++
      ("\"message\":\"Internal error: upstream connection failed\"\x7d\x7d\n" : String).data).drop 22
      = 'n' :: ("ull,\"error\":\x7b\"code\":-32603," : String).data ++
      ("\"message\":\"Internal error: upstream connection failed\"\x7d\x7d\n" : String).data := by
    decide
  rw [hl] at hd
  have hr : (sampleJSONString "2.0").data = "\"2.0\"".data := by decide
  rw [hr] at hd
  simp at hd

/-- C8, amended: on a method rejection the envelope carries the id of the first
request whose method is not allowed (`null` when it has none); when every method is
allowed and the upstream call fails, the envelope carries id `null`, whatever the ids
of the forwarded requests are. -/
theorem C8_error_envelope_id (lib : Lib) (p : Proxy) (r : Request) (body : String)
    (requests : List JSONRPCRequest)
    (hpost : r.Method = "POST")
    (hauth : p.config.ProxyAuth.Enabled = true → p.checkProxyAuth lib r = true)
    (hbody : r.Body = some body)
    (hdecode : lib.unmarshalBatch body = some requests ∨
      (lib.unmarshalBatch body = none ∧
        ∃ single, lib.unmarshalSingle body = some single ∧ requests = [single])) :
    (∀ pre req post, requests = pre ++ req :: post →
      (∀ x ∈ pre, p.config.IsMethodAllowed x.Method = true) →
      p.config.IsMethodAllowed req.Method = false →
      ∃ text,
        marshalResponse lib
          { JSONRPC := "2.0", ID := some (req.ID.getD "null"), Result := none,
            Error := some { Code := -32601, Message := "Method not allowed: " ++ req.Method } }
          = some text ∧
        (p.ServeHTTP lib ResponseWriter.fresh r).w.body = text ++ "\n") ∧
    ((∀ x ∈ requests, p.config.IsMethodAllowed x.Method = true) →
      (lib.newRequestOK p.config.Upstream.URL = false ∨
        p.httpClient (p.upstreamRequest lib body) = none) →
      ∃ message text,
        marshalResponse lib
          { JSONRPC := "2.0", ID := some "null", Result := none,
            Error := some { Code := -32603, Message := message } } = some text ∧
        (p.ServeHTTP lib ResponseWriter.fresh r).w.body = text ++ "\n") := by
  have hparse := parseRequests_of_decode lib body requests hdecode
  constructor
  · intro pre req post hsplit hpre hreq
    subst hsplit
    obtain ⟨text, htext, hserve⟩ := ServeHTTP_blocked lib p r body _ req hpost hauth hbody hparse
      (blockedRequest_split p.config pre post req hpre hreq)
    exact ⟨text, htext, by rw [hserve]⟩
  · intro hallowed hfail
    obtain ⟨message, text, _, htext, hw⟩ := forwardRequest_failed lib p body hfail
    refine ⟨message, text, htext, ?_⟩
    rw [ServeHTTP_forwarded lib p _ r body requests hpost hauth hbody hparse hallowed, hw]

/-- C8, amended, at scenario 1 with an upstream that cannot be reached. -/
theorem C8_error_envelope_id_witness :
    (∀ pre req post,
      [({ JSONRPC := "2.0", ID := some "1", Method := "eth_call", Params := some "[]" } :
        JSONRPCRequest)] = pre ++ req :: post →
      (∀ x ∈ pre, downProxy.config.IsMethodAllowed x.Method = true) →
      downProxy.config.IsMethodAllowed req.Method = false →
      ∃ text,
        marshalResponse sampleLib
          { JSONRPC := "2.0", ID := some (req.ID.getD "null"), Result := none,
            Error := some { Code := -32601, Message := "Method not allowed: " ++ req.Method } }
          = some text ∧
        (downProxy.ServeHTTP sampleLib ResponseWriter.fresh (postCall callBody)).w.body =
          text ++ "\n") ∧
    ((∀ x ∈ [({ JSONRPC := "2.0", ID := some "1", Method := "eth_call", Params := some "[]" } :
        JSONRPCRequest)], downProxy.config.IsMethodAllowed x.Method = true) →
      (sampleLib.newRequestOK downProxy.config.Upstream.URL = false ∨
        downProxy.httpClient (downProxy.upstreamRequest sampleLib callBody) = none) →
      ∃ message text,
        marshalResponse sampleLib
          { JSONRPC := "2.0", ID := some "null", Result := none,
            Error := some { Code := -32603, Message := message } } = some text ∧
        (downProxy.ServeHTTP sampleLib ResponseWriter.fresh (postCall callBody)).w.body =
          text ++ "\n") :=
  C8_error_envelope_id sampleLib downProxy (postCall callBody) callBody _
    (by decide) (by decide) (by decide)
    (Or.inr ⟨by decide,
      { JSONRPC := "2.0", ID := some "1", Method := "eth_call", Params := some "[]" },
      by decide, rfl⟩)

/-- C9: for a call that the handler forwards (a POST that passes inbound
authentication, decodes, and has only allowed methods), when the upstream request
cannot be built or the client returns an error, the handler answers with status 200,
the JSON content type as its only header and one marshalled error envelope with code
-32603 and id `null`; nothing of an upstream response is in the answer. -/
theorem C9_upstream_failure_is_internal_error (lib : Lib) (p : Proxy) (r : Request)
    (body : String) (requests : List JSONRPCRequest)
    (hpost : r.Method = "POST")
    (hauth : p.config.ProxyAuth.Enabled = true → p.checkProxyAuth lib r = true)
    (hbody : r.Body = some body)
    (hdecode : lib.unmarshalBatch body = some requests ∨
      (lib.unmarshalBatch body = none ∧
        ∃ single, lib.unmarshalSingle body = some single ∧ requests = [single]))
    (hallowed : ∀ x ∈ requests, p.config.IsMethodAllowed x.Method = true)
    (hfail : lib.newRequestOK p.config.Upstream.URL = false ∨
      p.httpClient (p.upstreamRequest lib body) = none) :
    ∃ message text,
      (message = "Internal error: failed to create upstream request" ∨
        message = "Internal error: upstream connection failed") ∧
      marshalResponse lib
        { JSONRPC := "2.0", ID := some "null", Result := none,
          Error := some { Code := -32603, Message := message } } = some text ∧
      (p.ServeHTTP lib ResponseWriter.fresh r).w =
        { header := [("Content-Type", ["application/json"])], status := some 200,
          body := text ++ "\n" } := by
  have hparse := parseRequests_of_decode lib body requests hdecode
  rw [ServeHTTP_forwarded lib p _ r body requests hpost hauth hbody hparse hallowed]
  exact forwardRequest_failed lib p body hfail

/-- C9 at a batch of two allowed calls and an upstream that cannot be reached. -/
theorem C9_upstream_failure_is_internal_error_witness :
    ∃ message text,
      (message = "Internal error: failed to create upstream request" ∨
        message = "Internal error: upstream connection failed") ∧
      marshalResponse sampleLib
        { JSONRPC := "2.0", ID := some "null", Result := none,
          Error := some { Code := -32603, Message := message } } = some text ∧
      (downProxy.ServeHTTP sampleLib ResponseWriter.fresh (postCall allowedBatchBody)).w =
        { header := [("Content-Type", ["application/json"])], status := some 200,
          body := text ++ "\n" } :=
  C9_upstream_failure_is_internal_error sampleLib downProxy (postCall allowedBatchBody)
    allowedBatchBody
    [{ JSONRPC := "", ID := some "1", Method := "eth_call", Params := none },
     { JSONRPC := "", ID := some "\"b\"", Method := "eth_call", Params := none }]
    (by decide) (by decide) (by decide) (Or.inl (by decide)) (by decide) (Or.inr (by decide))

/-- C10: an inbound call whose HTTP method is not POST is answered by `http.Error`
with status 405 and the plain text `Method not allowed`, which is not a JSON-RPC
envelope, and no request is handed to the upstream client, whatever the headers and
the body are. -/
theorem C10_non_post_rejected (lib : Lib) (p : Proxy) (r : Request)
    (hmethod : r.Method ≠ "POST") :
    (p.ServeHTTP lib ResponseWriter.fresh r).w =
        { header := [("Content-Type", ["text/plain; charset=utf-8"]),
                     ("X-Content-Type-Options", ["nosniff"])],
          status := some 405, body := "Method not allowed\n" } ∧
      (∀ resp text, marshalResponse lib resp = some text →
        (p.ServeHTTP lib ResponseWriter.fresh r).w.body ≠ text ++ "\n") ∧
      (p.ServeHTTP lib ResponseWriter.fresh r).calls = [] := by
  have hw : p.ServeHTTP lib ResponseWriter.fresh r =
      { w := { header := [("Content-Type", ["text/plain; charset=utf-8"]),
                          ("X-Content-Type-Options", ["nosniff"])],
               status := some 405, body := "Method not allowed\n" },
        calls := [] } := by
    unfold Proxy.ServeHTTP
    rw [if_pos (by simpa using hmethod)]
    simp only [ResponseWriter.fresh, httpError_unsent]
    decide
  rw [hw]
  refine ⟨rfl, ?_, rfl⟩
  intro resp text h
  exact not_envelope_of_head lib 'M' "ethod not allowed\n".data (by decide) resp text h

/-- C10 at a GET call with the body of scenario 1. -/
theorem C10_non_post_rejected_witness :
    ({ postCall callBody with Method := "GET" } : Request).Method ≠ "POST" ∧
    ((sampleProxy.ServeHTTP sampleLib ResponseWriter.fresh
        { postCall callBody with Method := "GET" }).w =
        { header := [("Content-Type", ["text/plain; charset=utf-8"]),
                     ("X-Content-Type-Options", ["nosniff"])],
          status := some 405, body := "Method not allowed\n" } ∧
      (∀ resp text, marshalResponse sampleLib resp = some text →
        (sampleProxy.ServeHTTP sampleLib ResponseWriter.fresh
          { postCall callBody with Method := "GET" }).w.body ≠ text ++ "\n") ∧
      (sampleProxy.ServeHTTP sampleLib ResponseWriter.fresh
        { postCall callBody with Method := "GET" }).calls = []) :=
  ⟨by decide, C10_non_post_rejected sampleLib sampleProxy _ (by decide)⟩

/-! ## Lemmas on the configuration -/

/-- The membership loop finds exactly the elements of the list. -/
theorem isMethodAllowedLoop_iff (method : String) (allowed : List String) :
    isMethodAllowedLoop method allowed = true ↔ method ∈ allowed := by
  induction allowed with
  | nil => simp [isMethodAllowedLoop]
  | cons m rest ih =>
    by_cases hm : m = method
    · simp [isMethodAllowedLoop, hm]
    · have hne : ¬ method = m := fun h => hm h.symm
      simp [isMethodAllowedLoop, hm, hne, ih]

/-- With `eth_call` as the only allowed method, the name itself is accepted and a
variant in another case, a prefix, and names with a blank before or after are not. -/
theorem IsMethodAllowed_variants :
    sampleConfig.IsMethodAllowed "eth_call" = true ∧
    sampleConfig.IsMethodAllowed "eth_Call" = false ∧
    sampleConfig.IsMethodAllowed "ETH_CALL" = false ∧
    sampleConfig.IsMethodAllowed "eth_" = false ∧
    sampleConfig.IsMethodAllowed "eth_call " = false ∧
    sampleConfig.IsMethodAllowed " eth_call" = false ∧
    sampleConfig.IsMethodAllowed "eth_callX" = false := by
  decide

/-- An `int64` result in range is the exact result. -/
theorem wrapInt64_of_range (x : Int) (hlo : -9223372036854775808 ≤ x)
    (hhi : x ≤ 9223372036854775807) : wrapInt64 x = x := by
  unfold wrapInt64
  omega

/-! ## The claims on the configuration -/

/-- C13: `IsMethodAllowed(m)` is true exactly when some element of the allowed-method
list equals `m` as a string; two lists with the same elements, in any order and with
any repetitions, give the same answer; a name that equals no element of the list, be
it a prefix or a variant in case or blanks of an allowed name, is not accepted. -/
theorem C13_IsMethodAllowed_is_exact_membership (c : Config) (method : String) :
    (c.IsMethodAllowed method = true ↔ ∃ m ∈ c.AllowedMethods, m = method) ∧
    (∀ c2 : Config, (∀ m, m ∈ c2.AllowedMethods ↔ m ∈ c.AllowedMethods) →
      c2.IsMethodAllowed method = c.IsMethodAllowed method) ∧
    (∀ variant, (∀ m ∈ c.AllowedMethods, m ≠ variant) → c.IsMethodAllowed variant = false) := by
  refine ⟨?_, ?_, ?_⟩
  · simp [Config.IsMethodAllowed, isMethodAllowedLoop_iff]
  · intro c2 hsame
    have h1 := isMethodAllowedLoop_iff method c.AllowedMethods
    have h2 := isMethodAllowedLoop_iff method c2.AllowedMethods
    unfold Config.IsMethodAllowed
    cases h : isMethodAllowedLoop method c.AllowedMethods
    · cases h' : isMethodAllowedLoop method c2.AllowedMethods
      · rfl
      · rw [(h1.2 ((hsame method).1 (h2.1 h')))] at h
        cases h
    · exact h2.2 ((hsame method).2 (h1.1 h))
  · intro variant hne
    cases h : c.IsMethodAllowed variant
    · rfl
    · have hmem := (isMethodAllowedLoop_iff variant c.AllowedMethods).1 h
      exact absurd rfl (hne variant hmem)

/-- C13 at two lists with the same elements in another order and with a repetition. -/
theorem C13_IsMethodAllowed_is_exact_membership_witness :
    (∀ m, m ∈ repeatedMethodConfig.AllowedMethods ↔ m ∈ twoMethodConfig.AllowedMethods) ∧
    repeatedMethodConfig.IsMethodAllowed "eth_call" = twoMethodConfig.IsMethodAllowed "eth_call" ∧
    twoMethodConfig.IsMethodAllowed "eth_call" = true ∧
    twoMethodConfig.IsMethodAllowed "eth_Call" = false :=
  have hsame : ∀ m, m ∈ repeatedMethodConfig.AllowedMethods ↔ m ∈ twoMethodConfig.AllowedMethods := by
    intro m
    simp only [repeatedMethodConfig, twoMethodConfig, List.mem_cons, List.mem_singleton,
      List.not_mem_nil, or_false]
    constructor
    · rintro (h | h | h)
      · exact Or.inr h
      · exact Or.inl h
      · exact Or.inr h
    · rintro (h | h)
      · exact Or.inr (Or.inl h)
      · exact Or.inl h
  ⟨hsame,
    (C13_IsMethodAllowed_is_exact_membership twoMethodConfig "eth_call").2.1
      repeatedMethodConfig hsame,
    (C13_IsMethodAllowed_is_exact_membership twoMethodConfig "eth_call").1.2
      ⟨"eth_call", by decide, rfl⟩,
    (C13_IsMethodAllowed_is_exact_membership twoMethodConfig "eth_call").2.2 "eth_Call"
      (by decide)⟩

/-- C14: `validate` returns the nil error exactly when the listen address and the
upstream URL are not empty, the allowed-method list has at least one element and, when
inbound authentication is enabled, its username and password are not empty; the
upstream username, password and timeout do not change the result. -/
theorem C14_validate_ok_iff (c : Config) :
    (c.validate = Except.ok () ↔
      c.Listen ≠ "" ∧ c.Upstream.URL ≠ "" ∧ 0 < c.AllowedMethods.length ∧
      (c.ProxyAuth.Enabled = true → c.ProxyAuth.Username ≠ "" ∧ c.ProxyAuth.Password ≠ "")) ∧
    (∀ username password timeout,
      ({ c with Upstream := { c.Upstream with Username := username, Password := password,
                                               Timeout := timeout } } : Config).validate =
        c.validate) := by
  constructor
  · unfold Config.validate
    by_cases h1 : c.Listen = ""
    · simp [h1]
    · by_cases h2 : c.Upstream.URL = ""
      · simp [h1, h2]
      · cases h3 : c.AllowedMethods with
        | nil => simp [h1, h2]
        | cons m rest =>
          cases h4 : c.ProxyAuth.Enabled
          · simp [h1, h2]
          · by_cases h5 : c.ProxyAuth.Username = ""
            · simp [h1, h2, h5]
            · by_cases h6 : c.ProxyAuth.Password = ""
              · simp [h1, h2, h5, h6]
              · simp [h1, h2, h5, h6]
  · intro username password timeout
    rfl

/-- C14 at the configuration with inbound authentication `admin` / `secret`. -/
theorem C14_validate_ok_iff_witness :
    authConfig.validate = Except.ok () :=
  (C14_validate_ok_iff authConfig).1.2
    ⟨by decide, by decide, by decide, fun _ => ⟨by decide, by decide⟩⟩

/-- C15: `GetUpstreamTimeout` returns 30 seconds when the timeout string is empty or
`time.ParseDuration` returns an error, and the parsed duration otherwise; `NewProxy`
builds the client with this value as its timeout; the write timeout of the server that
`Start` builds is this value plus 10 seconds in `int64` arithmetic, which is the exact
sum whenever the sum is an `int64`. -/
theorem C15_upstream_timeout (ParseDuration : String → Option Int)
    (clientDo : Int → UpstreamRequest → Option UpstreamResponse) (c : Config) :
    (c.Upstream.Timeout = "" ∨ ParseDuration c.Upstream.Timeout = none →
      c.GetUpstreamTimeout ParseDuration = 30 * Second) ∧
    (∀ d, c.Upstream.Timeout ≠ "" → ParseDuration c.Upstream.Timeout = some d →
      c.GetUpstreamTimeout ParseDuration = d) ∧
    (NewProxy ParseDuration clientDo c).config = c ∧
    (NewProxy ParseDuration clientDo c).httpClient =
      clientDo (c.GetUpstreamTimeout ParseDuration) ∧
    ((NewProxy ParseDuration clientDo c).StartServer ParseDuration).WriteTimeout =
      wrapInt64 (c.GetUpstreamTimeout ParseDuration + 10 * Second) ∧
    (-9223372036854775808 ≤ c.GetUpstreamTimeout ParseDuration + 10 * Second →
      c.GetUpstreamTimeout ParseDuration + 10 * Second ≤ 9223372036854775807 →
      ((NewProxy ParseDuration clientDo c).StartServer ParseDuration).WriteTimeout =
        c.GetUpstreamTimeout ParseDuration + 10 * Second) := by
  refine ⟨?_, ?_, rfl, rfl, rfl, ?_⟩
  · intro h
    unfold Config.GetUpstreamTimeout
    rcases h with h | h
    · simp [h]
    · simp [h]
  · intro d hne hd
    unfold Config.GetUpstreamTimeout
    simp [hne, hd]
  · intro hlo hhi
    exact wrapInt64_of_range _ hlo hhi

/-- C15 at the timeout string `45s`: the timeout is 45 seconds and the write timeout
of the server is 55 seconds. -/
theorem C15_upstream_timeout_witness :
    timeoutConfig.GetUpstreamTimeout sampleParseDuration = 45 * Second ∧
    ((NewProxy sampleParseDuration sampleClientDo timeoutConfig).StartServer
      sampleParseDuration).WriteTimeout = 55 * Second := by
  obtain ⟨_, hparsed, _, _, _, hexact⟩ :=
    C15_upstream_timeout sampleParseDuration sampleClientDo timeoutConfig
  have ht := hparsed 45000000000 (by decide) (by decide)
  refine ⟨by rw [ht]; decide, ?_⟩
  rw [hexact (by rw [ht]; decide) (by rw [ht]; decide), ht]
  decide

/-! ## More lemmas on the handler -/

/-- The marshalled error envelope is the text the specification gives. -/
theorem marshalResponse_errorEnvelopeText (lib : Lib) (raw idText : String) (code : Int)
    (message : String) (h : lib.jsonCompact raw = some idText) :
    marshalResponse lib
      { JSONRPC := "2.0", ID := some raw, Result := none,
        Error := some { Code := code, Message := message } } =
      some (errorEnvelopeText lib idText code message) := by
  have hv : ("2.0" : String).data ≠ [] := by decide
  simp only [marshalResponse, marshalRaw, marshalResultMember, h, if_neg hv, marshalError,
    errorEnvelopeText, List.nil_append, List.append_nil, List.cons_append, joinMembers,
    Option.some.injEq]
  apply String.ext
  simp only [String.data_append, List.append_assoc]
  rfl

/-- The slice after a prefix of six characters. -/
theorem sliceFrom_basic (payload : String) : sliceFrom ("Basic " ++ payload) 6 = payload := by
  apply String.ext
  simp [sliceFrom]

/-- The handler on a POST that fails the inbound check. -/
theorem ServeHTTP_unauthorized (lib : Lib) (p : Proxy) (r : Request)
    (hpost : r.Method = "POST") (henabled : p.config.ProxyAuth.Enabled = true)
    (hcheck : p.checkProxyAuth lib r = false) :
    p.ServeHTTP lib ResponseWriter.fresh r =
      { w := { header := [("WWW-Authenticate", ["Basic realm=\"juno-proxy\""]),
                          ("Content-Type", ["text/plain; charset=utf-8"]),
                          ("X-Content-Type-Options", ["nosniff"])],
               status := some 401, body := "Unauthorized\n" },
        calls := [] } := by
  unfold Proxy.ServeHTTP
  rw [if_neg (by simp [hpost]), if_pos (by simp [henabled, hcheck])]
  simp only [ResponseWriter.fresh, ResponseWriter.SetHeader, httpError_unsent]
  decide

/-! ## The claims on the envelope and on single paths of the handler -/

/-- C12: for every code and message and every id that is nil or valid JSON, the
envelope that `sendError` encodes has the version tag `2.0`, an error object with that
code and that message and no result; its serialisation is the text of the
specification: the members `jsonrpc`, `id`, `error`, in this order. -/
theorem C12_error_envelope_shape (lib : Lib) (id : Option String) (code : Int)
    (message idText : String)
    (hid : lib.jsonCompact (id.getD "null") = some idText) :
    marshalResponse lib
        { JSONRPC := "2.0", ID := some (id.getD "null"), Result := none,
          Error := some { Code := code, Message := message } } =
        some (errorEnvelopeText lib idText code message) ∧
      Proxy.sendError lib ResponseWriter.fresh id code message =
        { header := [("Content-Type", ["application/json"])], status := some 200,
          body := errorEnvelopeText lib idText code message ++ "\n" } := by
  have hm := marshalResponse_errorEnvelopeText lib (id.getD "null") idText code message hid
  exact ⟨hm, sendError_fresh lib id code message _ hm⟩

/-- C12 at id 1, code -32601 and the method `eth_sendTransaction`. -/
theorem C12_error_envelope_shape_witness :
    Proxy.sendError sampleLib ResponseWriter.fresh (some "1") (-32601)
        "Method not allowed: eth_sendTransaction" =
      { header := [("Content-Type", ["application/json"])], status := some 200,
        body := "\x7b\"jsonrpc\":\"2.0\",\"id\":1,\"error\":\x7b\"code\":-32601," ++
          "\"message\":\"Method not allowed: eth_sendTransaction\"\x7d\x7d\n" } := by
  rw [(C12_error_envelope_shape sampleLib (some "1") (-32601)
    "Method not allowed: eth_sendTransaction" "1" (by decide)).2]
  decide

/-- C16 as stated fails: with inbound authentication enabled, for the right username
and a wrong password, the body of the response is the text `Unauthorized` and a
newline, not empty. -/
theorem C16_counterexample :
    authProxy.config.ProxyAuth.Enabled = true ∧
    wrongPasswordCall.Header.Get "Authorization" = "Basic YWRtaW46d3Jvbmc=" ∧
    sampleLib.DecodeString "YWRtaW46d3Jvbmc=" = some "admin:wrong" ∧
    authProxy.config.ProxyAuth.Username = "admin" ∧
    authProxy.config.ProxyAuth.Password ≠ "wrong" ∧
    (authProxy.ServeHTTP sampleLib ResponseWriter.fresh wrongPasswordCall).w.status = some 401 ∧
    (authProxy.ServeHTTP sampleLib ResponseWriter.fresh wrongPasswordCall).w.body =
      "Unauthorized\n" ∧
    (authProxy.ServeHTTP sampleLib ResponseWriter.fresh wrongPasswordCall).w.body ≠ "" := by
  decide

/-- C16, amended: with inbound authentication enabled, a POST call whose credentials
decode to the configured username and another password is answered with status 401,
the Basic challenge header, and the plain-text body `Unauthorized` followed by a
newline. -/
theorem C16_wrong_password_response (lib : Lib) (p : Proxy) (r : Request)
    (payload wrong : String)
    (hpost : r.Method = "POST")
    (henabled : p.config.ProxyAuth.Enabled = true)
    (hheader : r.Header.Get "Authorization" = "Basic " ++ payload)
    (hdecode : lib.DecodeString payload = some (p.config.ProxyAuth.Username ++ ":" ++ wrong))
    (hwrong : wrong ≠ p.config.ProxyAuth.Password) :
    (p.ServeHTTP lib ResponseWriter.fresh r).w.status = some 401 ∧
      (p.ServeHTTP lib ResponseWriter.fresh r).w.header.Values "WWW-Authenticate" =
        ["Basic realm=\"juno-proxy\""] ∧
      (p.ServeHTTP lib ResponseWriter.fresh r).w.body = "Unauthorized\n" := by
  have hcheck : p.checkProxyAuth lib r = false := by
    cases hc : p.checkProxyAuth lib r with
    | false => rfl
    | true =>
      obtain ⟨_, _, decoded, h3, h4⟩ := (checkProxyAuth_eq_true_iff lib p r).1 hc
      rw [hheader, sliceFrom_basic, hdecode] at h3
      cases h3
      have hpair := congrArg String.data (SplitN2_pair _ _ _ h4)
      simp only [String.data_append, List.append_assoc, List.append_cancel_left_eq] at hpair
      exact absurd (String.ext hpair) hwrong
  rw [ServeHTTP_unauthorized lib p r hpost henabled hcheck]
  exact ⟨rfl, by decide, rfl⟩

/-- C16, amended, at the right username `admin` with the password `wrong`. -/
theorem C16_wrong_password_response_witness :
    (authProxy.ServeHTTP sampleLib ResponseWriter.fresh wrongPasswordCall).w.status = some 401 ∧
      (authProxy.ServeHTTP sampleLib ResponseWriter.fresh wrongPasswordCall).w.header.Values
        "WWW-Authenticate" = ["Basic realm=\"juno-proxy\""] ∧
      (authProxy.ServeHTTP sampleLib ResponseWriter.fresh wrongPasswordCall).w.body =
        "Unauthorized\n" :=
  C16_wrong_password_response sampleLib authProxy wrongPasswordCall "YWRtaW46d3Jvbmc=" "wrong"
    (by decide) (by decide) (by decide) (by decide) (by decide)

/-- C17 as stated fails: a POST call without inbound authentication whose body `[]`
decodes to a batch of no requests is not forwarded to the upstream when the configured
upstream URL, here an address without a scheme that `validate` accepts, is one for
which `http.NewRequest` returns an error: no request is handed to the client and the
answer is the internal-error envelope. -/
theorem C17_counterexample :
    (postCall "[]").Method = "POST" ∧
    hostPortProxy.config.ProxyAuth.Enabled = false ∧
    hostPortProxy.config.validate = Except.ok () ∧
    urlLib.unmarshalBatch "[]" = some [] ∧
    hostPortProxy.config.Upstream.URL = "127.0.0.1:8232" ∧
    urlLib.newRequestOK "127.0.0.1:8232" = false ∧
    (hostPortProxy.ServeHTTP urlLib ResponseWriter.fresh (postCall "[]")).calls = [] ∧
    (hostPortProxy.ServeHTTP urlLib ResponseWriter.fresh (postCall "[]")).w.body =
      "\x7b\"jsonrpc\":\"2.0\",\"id\":null,\"error\":\x7b\"code\":-32603," ++
        "\"message\":\"Internal error: failed to create upstream request\"\x7d\x7d\n" :=
  ⟨by decide, by decide, rfl, by decide, by decide, by decide, by decide, by decide⟩

/-- C17, amended: for a POST call that passes inbound authentication and whose body
decodes to a batch of no requests, the method loop rejects nothing: the result of the
handler is the same for every list of allowed methods and is the result of
`forwardRequest` on the inbound body. When `http.NewRequest` accepts the upstream URL,
the one request handed to the client has exactly the inbound body; when it does not, no
request is handed over and the answer is the envelope with code -32603. -/
theorem C17_empty_batch_passes_method_guard (lib : Lib) (p : Proxy) (r : Request)
    (body : String)
    (hpost : r.Method = "POST")
    (hauth : p.config.ProxyAuth.Enabled = true → p.checkProxyAuth lib r = true)
    (hbody : r.Body = some body)
    (hempty : lib.unmarshalBatch body = some []) :
    (∀ methods : List String,
      Proxy.ServeHTTP lib
          { config := { p.config with AllowedMethods := methods }, httpClient := p.httpClient }
          ResponseWriter.fresh r =
        p.ServeHTTP lib ResponseWriter.fresh r) ∧
      p.ServeHTTP lib ResponseWriter.fresh r = p.forwardRequest lib ResponseWriter.fresh body ∧
      (lib.newRequestOK p.config.Upstream.URL = true →
        (p.ServeHTTP lib ResponseWriter.fresh r).calls = [p.upstreamRequest lib body] ∧
        (p.upstreamRequest lib body).Body = body) ∧
      (lib.newRequestOK p.config.Upstream.URL = false →
        (p.ServeHTTP lib ResponseWriter.fresh r).calls = [] ∧
        ∃ text,
          marshalResponse lib
            { JSONRPC := "2.0", ID := some "null", Result := none,
              Error := some { Code := -32603,
                              Message := "Internal error: failed to create upstream request" } }
            = some text ∧
          (p.ServeHTTP lib ResponseWriter.fresh r).w =
            { header := [("Content-Type", ["application/json"])], status := some 200,
              body := text ++ "\n" }) := by
  have hparse : parseRequests lib body = some [] :=
    parseRequests_of_decode lib body [] (Or.inl hempty)
  have hfw := ServeHTTP_forwarded lib p ResponseWriter.fresh r body [] hpost hauth hbody hparse
    (by simp)
  refine ⟨?_, hfw, ?_, ?_⟩
  · intro methods
    rw [hfw, ServeHTTP_forwarded lib
      { config := { p.config with AllowedMethods := methods }, httpClient := p.httpClient }
      ResponseWriter.fresh r body [] hpost hauth hbody hparse (by simp)]
    rfl
  · intro hok
    refine ⟨by rw [hfw, forwardRequest_calls_built lib p _ body hok], ?_⟩
    unfold Proxy.upstreamRequest
    split <;> rfl
  · intro hno
    obtain ⟨text, htext⟩ := marshalResponse_error lib "null" "null" (-32603)
      "Internal error: failed to create upstream request" lib.compact_null
    have hout : p.forwardRequest lib ResponseWriter.fresh body =
        { w := { header := [("Content-Type", ["application/json"])], status := some 200,
                 body := text ++ "\n" },
          calls := [] } := by
      simp only [Proxy.forwardRequest, hno, Bool.not_false, if_true]
      rw [sendError_fresh lib none (-32603) _ text htext]
    rw [hfw, hout]
    exact ⟨rfl, text, htext, rfl⟩

/-- C17, amended, at the body `[]`, with `eth_call` as the only allowed method and an
upstream URL that `http.NewRequest` accepts: the body `[]` is handed to the client. -/
theorem C17_empty_batch_passes_method_guard_witness :
    (sampleProxy.ServeHTTP sampleLib ResponseWriter.fresh (postCall "[]")).calls =
        [sampleProxy.upstreamRequest sampleLib "[]"] ∧
      (sampleProxy.upstreamRequest sampleLib "[]").Body = "[]" :=
  (C17_empty_batch_passes_method_guard sampleLib sampleProxy (postCall "[]") "[]"
    (by decide) (by decide) (by decide) (by decide)).2.2.1 (by decide)

/-! ## Lemmas on the inbound check -/

/-- A cut leaves no separator before the cut. -/
theorem cutAt_not_mem (sep : Char) (l a b : List Char) (h : cutAt sep l = some (a, b)) :
    sep ∉ a := by
  induction l generalizing a with
  | nil => simp [cutAt] at h
  | cons c cs ih =>
    unfold cutAt at h
    split at h
    · simp only [Option.some.injEq, Prod.mk.injEq] at h
      obtain ⟨rfl, _⟩ := h
      simp
    · next hc =>
      split at h
      · cases h
      · next a1 b1 hcut =>
        simp only [Option.some.injEq, Prod.mk.injEq] at h
        obtain ⟨rfl, rfl⟩ := h
        simp only [List.mem_cons, not_or]
        exact ⟨fun he => hc he.symm, ih a1 hcut⟩

/-- The cut of a text at the first separator. -/
theorem cutAt_append (sep : Char) (a b : List Char) (ha : sep ∉ a) :
    cutAt sep (a ++ sep :: b) = some (a, b) := by
  induction a with
  | nil => simp [cutAt]
  | cons c cs ih =>
    simp only [List.mem_cons, not_or] at ha
    have hc : ¬ c = sep := fun he => ha.1 he.symm
    simp [cutAt, hc, ih ha.2]

/-- A text without the separator is not cut. -/
theorem cutAt_eq_none (sep : Char) (l : List Char) (h : sep ∉ l) : cutAt sep l = none := by
  induction l with
  | nil => rfl
  | cons c cs ih =>
    simp only [List.mem_cons, not_or] at h
    have hc : ¬ c = sep := fun he => h.1 he.symm
    simp [cutAt, hc, ih h.2]

/-- The split gives a pair exactly for a text with the first part, a colon and the
second part, where the first part has no colon. -/
theorem SplitN2_eq_pair_iff (d user pass : String) :
    SplitN2 d ':' = [user, pass] ↔ d = user ++ ":" ++ pass ∧ ':' ∉ user.data := by
  constructor
  · intro h
    refine ⟨SplitN2_pair d user pass h, ?_⟩
    unfold SplitN2 at h
    split at h
    · simp at h
    · next a b hcut =>
      simp only [List.cons.injEq, and_true] at h
      obtain ⟨rfl, _⟩ := h
      exact cutAt_not_mem ':' d.data a b hcut
  · rintro ⟨rfl, hu⟩
    have hdata : (user ++ ":" ++ pass).data = user.data ++ ':' :: pass.data := by
      simp [String.data_append]
    unfold SplitN2
    rw [hdata, cutAt_append ':' user.data pass.data hu]

/-- A text has the prefix `Basic ` exactly when it is that prefix and a payload. -/
theorem HasPrefix_basic_iff (s : String) :
    HasPrefix s "Basic " = true ↔ ∃ payload, s = "Basic " ++ payload := by
  unfold HasPrefix
  rw [List.isPrefixOf_iff_prefix]
  constructor
  · rintro ⟨t, ht⟩
    exact ⟨⟨t⟩, String.ext (by simp [String.data_append, ← ht])⟩
  · rintro ⟨payload, rfl⟩
    exact ⟨payload.data, by simp [String.data_append]⟩

/-- The requests a body decodes to, in terms of the two decodings. -/
theorem parseRequests_eq_some_iff (lib : Lib) (body : String) (requests : List JSONRPCRequest) :
    parseRequests lib body = some requests ↔
      (lib.unmarshalBatch body = some requests ∨
        (lib.unmarshalBatch body = none ∧
          ∃ single, lib.unmarshalSingle body = some single ∧ requests = [single])) := by
  constructor
  · intro h
    unfold parseRequests at h
    cases hb : lib.unmarshalBatch body with
    | some rs =>
      rw [hb] at h
      exact Or.inl (by simpa using h)
    | none =>
      rw [hb] at h
      cases hs : lib.unmarshalSingle body with
      | none => rw [hs] at h; cases h
      | some single =>
        rw [hs] at h
        simp only [Option.some.injEq] at h
        exact Or.inr ⟨rfl, single, rfl, h.symm⟩
  · exact parseRequests_of_decode lib body requests

/-- The requests the handler hands to the upstream client, in closed form. -/
theorem ServeHTTP_calls_eq (lib : Lib) (p : Proxy) (w : ResponseWriter) (r : Request) :
    (p.ServeHTTP lib w r).calls =
      if r.Method = "POST" ∧
          (p.config.ProxyAuth.Enabled = true → p.checkProxyAuth lib r = true) ∧
          lib.newRequestOK p.config.Upstream.URL = true then
        match r.Body with
        | none => []
        | some body =>
          match parseRequests lib body with
          | none => []
          | some requests =>
            if blockedRequest p.config requests = none then [p.upstreamRequest lib body] else []
      else [] := by
  by_cases hpost : r.Method = "POST"
  · by_cases hauth : p.config.ProxyAuth.Enabled = true → p.checkProxyAuth lib r = true
    · cases hbody : r.Body with
      | none =>
        have h2 : (p.config.ProxyAuth.Enabled && !(p.checkProxyAuth lib r)) = false := by
          cases he : p.config.ProxyAuth.Enabled
          · simp
          · simp [hauth he]
        unfold Proxy.ServeHTTP
        simp [hpost, h2, hbody]
      | some body =>
        rw [ServeHTTP_of_post lib p w r body hpost hauth hbody]
        cases hn : lib.newRequestOK p.config.Upstream.URL with
        | false =>
          rw [if_neg (by simp)]
          cases hparse : parseRequests lib body with
          | none => simp
          | some requests =>
            cases hb : blockedRequest p.config requests with
            | some req => simp [hb]
            | none => simp [hb, Proxy.forwardRequest, hn]
        | true =>
          rw [if_pos ⟨hpost, hauth, rfl⟩]
          cases hparse : parseRequests lib body with
          | none => simp [hparse]
          | some requests =>
            cases hb : blockedRequest p.config requests with
            | some req => simp [hparse, hb]
            | none => simp [hparse, hb, forwardRequest_calls_built lib p w body hn]
    · have henabled : p.config.ProxyAuth.Enabled = true := by
        cases he : p.config.ProxyAuth.Enabled
        · exact absurd (fun h => by rw [he] at h; cases h) hauth
        · rfl
      have hcheck : p.checkProxyAuth lib r = false := by
        cases hc : p.checkProxyAuth lib r
        · rfl
        · exact absurd (fun _ => hc) hauth
      unfold Proxy.ServeHTTP
      simp [hpost, henabled, hcheck]
  · unfold Proxy.ServeHTTP
    simp [hpost]

/-! ## The claims on the upstream calls and on the inbound check -/

/-- C11 as stated fails: a POST call without inbound authentication whose single
request has an allowed method triggers no upstream call when the configured upstream
URL, here an address without a scheme that `validate` accepts, is one for which
`http.NewRequest` returns an error. -/
theorem C11_counterexample :
    (postCall callBody).Method = "POST" ∧
    hostPortProxy.config.ProxyAuth.Enabled = false ∧
    hostPortProxy.config.validate = Except.ok () ∧
    urlLib.unmarshalBatch callBody = none ∧
    urlLib.unmarshalSingle callBody =
      some { JSONRPC := "2.0", ID := some "1", Method := "eth_call", Params := some "[]" } ∧
    hostPortProxy.config.IsMethodAllowed "eth_call" = true ∧
    hostPortProxy.config.Upstream.URL = "127.0.0.1:8232" ∧
    urlLib.newRequestOK "127.0.0.1:8232" = false ∧
    (hostPortProxy.ServeHTTP urlLib ResponseWriter.fresh (postCall callBody)).calls = [] :=
  ⟨by decide, by decide, rfl, by decide, by decide, by decide, by decide, by decide, by decide⟩

/-- C11, amended: every inbound call hands at most one request to the upstream client,
and exactly one if and only if the call is a POST, passes inbound authentication (or
authentication is disabled), its body is read and decodes as a batch or a single
request, every decoded method is allowed, and `http.NewRequest` accepts the configured
upstream URL; the requests handed over are the same whatever the client answers, an
error included, so a failed call is not repeated and a repeated inbound call makes its
own upstream call. -/
theorem C11_upstream_call_count (lib : Lib) (p : Proxy) (r : Request) :
    (p.ServeHTTP lib ResponseWriter.fresh r).calls.length ≤ 1 ∧
    ((p.ServeHTTP lib ResponseWriter.fresh r).calls.length = 1 ↔
      r.Method = "POST" ∧
      (p.config.ProxyAuth.Enabled = true → p.checkProxyAuth lib r = true) ∧
      (∃ body requests, r.Body = some body ∧
        (lib.unmarshalBatch body = some requests ∨
          (lib.unmarshalBatch body = none ∧
            ∃ single, lib.unmarshalSingle body = some single ∧ requests = [single])) ∧
        ∀ x ∈ requests, p.config.IsMethodAllowed x.Method = true) ∧
      lib.newRequestOK p.config.Upstream.URL = true) ∧
    (∀ client : UpstreamRequest → Option UpstreamResponse,
      (Proxy.ServeHTTP lib { config := p.config, httpClient := client }
        ResponseWriter.fresh r).calls = (p.ServeHTTP lib ResponseWriter.fresh r).calls) := by
  refine ⟨?_, ?_, ?_⟩
  · rw [ServeHTTP_calls_eq]
    split
    · split
      · simp
      · split
        · simp
        · split <;> simp
    · simp
  · rw [ServeHTTP_calls_eq]
    constructor
    · intro hlen
      split at hlen
      · next hcond =>
        obtain ⟨hpost, hauth, hn⟩ := hcond
        refine ⟨hpost, hauth, ?_, hn⟩
        split at hlen
        · simp at hlen
        · next body hbody =>
          split at hlen
          · simp at hlen
          · next requests hparse =>
            split at hlen
            · next hb =>
              exact ⟨body, requests, hbody, (parseRequests_eq_some_iff lib body requests).1 hparse,
                (blockedRequest_eq_none p.config requests).1 hb⟩
            · simp at hlen
      · simp at hlen
    · rintro ⟨hpost, hauth, ⟨body, requests, hbody, hdecode, hallowed⟩, hn⟩
      have hparse := (parseRequests_eq_some_iff lib body requests).2 hdecode
      have hb := (blockedRequest_eq_none p.config requests).2 hallowed
      rw [if_pos ⟨hpost, hauth, hn⟩, hbody]
      simp [hparse, hb]
  · intro client
    rw [ServeHTTP_calls_eq, ServeHTTP_calls_eq]
    rfl

/-- C11, amended, at scenario 1: one upstream call when the upstream answers and one
when it cannot be reached. -/
theorem C11_upstream_call_count_witness :
    (sampleProxy.ServeHTTP sampleLib ResponseWriter.fresh (postCall callBody)).calls.length = 1 ∧
    (downProxy.ServeHTTP sampleLib ResponseWriter.fresh (postCall callBody)).calls =
      (sampleProxy.ServeHTTP sampleLib ResponseWriter.fresh (postCall callBody)).calls :=
  ⟨(C11_upstream_call_count sampleLib sampleProxy (postCall callBody)).2.1.2
      ⟨by decide, by decide,
        ⟨callBody,
          [{ JSONRPC := "2.0", ID := some "1", Method := "eth_call", Params := some "[]" }],
          by decide, Or.inr ⟨by decide, _, rfl, rfl⟩, by decide⟩,
        by decide⟩,
    (C11_upstream_call_count sampleLib sampleProxy (postCall callBody)).2.2
      (fun _ => none)⟩

/-- C18: `checkProxyAuth` returns true exactly when the Authorization header is the
text `Basic ` followed by a payload that decodes as base64 to a text which is the
configured username, a colon and the configured password, the username being the part
before the first colon. Hence no header authenticates when the configured username has
a colon, and a decoded text without a colon does not authenticate. -/
theorem C18_checkProxyAuth_iff (lib : Lib) (p : Proxy) (r : Request) :
    (p.checkProxyAuth lib r = true ↔
      ∃ payload decoded before after,
        r.Header.Get "Authorization" = "Basic " ++ payload ∧
        lib.DecodeString payload = some decoded ∧
        decoded = before ++ ":" ++ after ∧ ':' ∉ before.data ∧
        before = p.config.ProxyAuth.Username ∧ after = p.config.ProxyAuth.Password) ∧
    (':' ∈ p.config.ProxyAuth.Username.data → p.checkProxyAuth lib r = false) ∧
    (∀ payload decoded, r.Header.Get "Authorization" = "Basic " ++ payload →
      lib.DecodeString payload = some decoded → ':' ∉ decoded.data →
      p.checkProxyAuth lib r = false) := by
  have hiff : p.checkProxyAuth lib r = true ↔
      ∃ payload decoded before after,
        r.Header.Get "Authorization" = "Basic " ++ payload ∧
        lib.DecodeString payload = some decoded ∧
        decoded = before ++ ":" ++ after ∧ ':' ∉ before.data ∧
        before = p.config.ProxyAuth.Username ∧ after = p.config.ProxyAuth.Password := by
    rw [checkProxyAuth_eq_true_iff]
    constructor
    · rintro ⟨_, hprefix, decoded, hdec, hsplit⟩
      obtain ⟨payload, hpayload⟩ := (HasPrefix_basic_iff _).1 hprefix
      rw [hpayload, sliceFrom_basic] at hdec
      obtain ⟨hd, hu⟩ := (SplitN2_eq_pair_iff _ _ _).1 hsplit
      exact ⟨payload, decoded, _, _, hpayload, hdec, hd, hu, rfl, rfl⟩
    · rintro ⟨payload, decoded, before, after, hheader, hdec, hd, hu, rfl, rfl⟩
      refine ⟨?_, (HasPrefix_basic_iff _).2 ⟨payload, hheader⟩, decoded, ?_, ?_⟩
      · rw [hheader]
        intro hempty
        have := congrArg String.data hempty
        simp [String.data_append] at this
      · rw [hheader, sliceFrom_basic]
        exact hdec
      · exact (SplitN2_eq_pair_iff _ _ _).2 ⟨hd, hu⟩
  refine ⟨hiff, ?_, ?_⟩
  · intro hcolon
    cases hc : p.checkProxyAuth lib r with
    | false => rfl
    | true =>
      obtain ⟨_, _, before, _, _, _, _, hu, rfl, _⟩ := hiff.1 hc
      exact absurd hcolon hu
  · intro payload decoded hheader hdec hno
    cases hc : p.checkProxyAuth lib r with
    | false => rfl
    | true =>
      obtain ⟨payload2, decoded2, before, after, hheader2, hdec2, hd, _, _, _⟩ := hiff.1 hc
      have hp : payload2 = payload := by
        have h := hheader2.symm.trans hheader
        have hdata := congrArg String.data h
        simp only [String.data_append, List.append_cancel_left_eq] at hdata
        exact String.ext hdata
      subst hp
      rw [hdec] at hdec2
      cases hdec2
      exfalso
      apply hno
      rw [hd]
      simp [String.data_append]

/-- C18 at a configured password with a colon: the header with the base64 text of
`admin:a:b` authenticates. -/
theorem C18_checkProxyAuth_iff_witness :
    colonProxy.config.ProxyAuth.Password = "a:b" ∧
    colonProxy.checkProxyAuth sampleLib
      { Method := "POST", Header := [("Authorization", ["Basic YWRtaW46YTpi"])],
        Body := none } = true :=
  ⟨by decide,
    (C18_checkProxyAuth_iff sampleLib colonProxy
      { Method := "POST", Header := [("Authorization", ["Basic YWRtaW46YTpi"])],
        Body := none }).1.2
      ⟨"YWRtaW46YTpi", "admin:a:b", "admin", "a:b", by decide, by decide, by decide, by decide,
        by decide, by decide⟩⟩

end JunoProxy
